import Mathlib

/-!
Verification development for the tool-use conversation state machine of the
mcp-workshop repository (lab03-aws-cloud-deployment/src/mcp-playground).

The Python source is shallowly embedded: the dynamic, duck-typed message
dictionaries become a tagged `Block` type, the `ConversationManager` class
becomes a `ConversationManager` structure with pure state-passing versions of
its methods, and `time.time()` becomes an explicit `now : Nat` argument at the
call sites that read the clock.  Python `dict`s keyed by strings become
association lists with in-place replacement (`insertA`), Python `set`s become
duplicate-free lists (`setAdd` / `setRemove`).
-/

/-- Roles of conversation turns (the `role` key of a message dict). -/
inductive Role
  | user
  | assistant
deriving DecidableEq, Repr

/-- A `toolUse` payload: `{toolUseId, name, input}` as produced by Bedrock.
The `input` payload is opaque to the conversation manager and is modelled as a
string. -/
structure ToolUse where
  toolUseId : String
  name : String
  input : String
deriving DecidableEq, Repr

/-- Content of a `toolResult` block: `{"text": v}` for string results,
`{"json": v}` for non-string results (conversation_manager.py lines 256-260). -/
inductive RContent
  | text (s : String)
  | json (v : String)
deriving DecidableEq, Repr

/-- One content block of a message: a dict tagged by which key is present
(`text`, `toolUse`, `toolResult`, or `cachePoint`). -/
inductive Block
  | text (s : String)
  | toolUse (tu : ToolUse)
  | toolResult (toolUseId : String) (content : List RContent)
  | cachePoint
deriving DecidableEq, Repr

/-- One message of the transcript: `{"role": ..., "content": [...]}`. -/
structure Message where
  role : Role
  content : List Block
deriving DecidableEq, Repr

/-- The states of `ConversationState` (conversation_manager.py lines 16-22). -/
inductive ConversationState
  | IDLE
  | WAITING_FOR_RESPONSE
  | PROCESSING_TOOLS
  | CONTINUING
  | ERROR
deriving DecidableEq, Repr

/-- Lookup in an association list modelling a Python dict. -/
def lookupA {α : Type} (k : String) : List (String × α) → Option α
  | [] => none
  | (k', v) :: rest => if k' = k then some v else lookupA k rest

/-- Insertion into an association list modelling Python dict assignment: the
first binding of the key is replaced in place, otherwise the binding is
appended (Python dicts keep insertion order). -/
def insertA {α : Type} (k : String) (v : α) : List (String × α) → List (String × α)
  | [] => [(k, v)]
  | (k', v') :: rest => if k' = k then (k, v) :: rest else (k', v') :: insertA k v rest

/-- Python `set.add` on a duplicate-free list model of a set. -/
def setAdd (x : String) (l : List String) : List String :=
  if x ∈ l then l else l ++ [x]

/-- Python `set.remove` / guarded removal on the list model of a set. -/
def setRemove (x : String) (l : List String) : List String :=
  l.filter (fun y => y ≠ x)

/-- The state held by a `ConversationManager` instance
(conversation_manager.py lines 30-50). -/
structure ConversationManager where
  messages : List Message
  tool_calls : List (String × ToolUse)
  state : ConversationState
  pending_tool_uses : List String
  used_tool_results : List String
  current_tool_use_id : Option String
  max_retries : Nat
  error_counts : List (String × Nat)
  last_error : Option String
  state_transition_time : Option Nat
deriving DecidableEq, Repr

namespace ConversationManager

/-- The freshly initialized manager (`__init__`, lines 30-50): empty
conversation, `IDLE` state, `max_retries = 3`. -/
def init : ConversationManager :=
  { messages := []
    tool_calls := []
    state := .IDLE
    pending_tool_uses := []
    used_tool_results := []
    current_tool_use_id := none
    max_retries := 3
    error_counts := []
    last_error := none
    state_transition_time := none }

/-- `transition_to` (lines 52-73): record the new state and the transition
time; on entry to `IDLE` additionally clear the pending set, the current tool
id and the last error, leaving the conversation content untouched. -/
def transition_to (new_state : ConversationState) (now : Nat)
    (s : ConversationManager) : ConversationManager :=
  let s1 := { s with state := new_state, state_transition_time := some now }
  if new_state = .IDLE then
    { s1 with pending_tool_uses := [], current_tool_use_id := none, last_error := none }
  else
    s1

/-- `add_user_message` (lines 75-102): refuse (returning `None`) outside the
`IDLE` state, otherwise append a single user turn with one text block.  The
method performs no state transition. -/
def add_user_message (content : String) (s : ConversationManager) :
    Option Message × ConversationManager :=
  if s.state ≠ .IDLE then (none, s)
  else
    let message : Message := { role := .user, content := [.text content] }
    (some message, { s with messages := s.messages ++ [message] })

end ConversationManager

/-- A Bedrock converse response as read by `process_bedrock_response`:
`stopReason` when present, and `output.message.content` when the `output` and
`message` keys are present (`none` models their absence). -/
structure BedrockResponse where
  stopReason : Option String
  output : Option (List Block)
deriving DecidableEq, Repr

/-- The dict returned by `process_bedrock_response` (lines 141-145):
`{"text": ..., "tool_uses": [...], "stop_reason": ...}`. -/
structure ProcessedResponse where
  text : String
  tool_uses : List ToolUse
  stop_reason : String
deriving DecidableEq, Repr

/-- The concatenation of the `text` blocks of a content list, in order
(the `result["text"] += content["text"]` accumulation of lines 157-159). -/
def extractText : List Block → String
  | [] => ""
  | .text t :: rest => t ++ extractText rest
  | _ :: rest => extractText rest

/-- The `toolUse` payloads of a content list, in order (the branch of
lines 162-172 that collects `result["tool_uses"]`). -/
def extractToolUses : List Block → List ToolUse
  | [] => []
  | .toolUse tu :: rest => tu :: extractToolUses rest
  | _ :: rest => extractToolUses rest

/-- The `toolUseId`s of the `toolUse` blocks of a content list, in order. -/
def toolUseIdsOfBlocks (blocks : List Block) : List String :=
  (extractToolUses blocks).map (fun tu => tu.toolUseId)

/-- The result dict passed to `add_tool_result`: an optional `error` entry and
an optional `content` entry, the latter either a string or a non-string value. -/
inductive ResultValue
  | str (s : String)
  | json (v : String)
deriving DecidableEq, Repr

/-- A tool-call result as consumed by `add_tool_result`. -/
structure ToolCallResult where
  error : Option String
  content : Option ResultValue
deriving DecidableEq, Repr

/-- The `toolResult` content entry built by lines 256-260:
`{"text": v}` for string content, `{"json": v}` otherwise, with the `content`
key defaulting to the empty string. -/
def resultContentOf (result : ToolCallResult) : RContent :=
  match result.content.getD (.str "") with
  | .str v => .text v
  | .json v => .json v

/-- The user turn carrying one `toolResult` block (lines 262-273). -/
def toolResultMessage (tool_use_id : String) (result : ToolCallResult) : Message :=
  { role := .user
    content := [.toolResult tool_use_id [resultContentOf result]] }

namespace ConversationManager

/-- The per-block bookkeeping of `process_bedrock_response` (lines 162-175):
for each `toolUse` block, in order, record the call in `tool_calls`, add its id
to `pending_tool_uses` and zero its entry in `error_counts`. -/
def registerToolUses (tus : List ToolUse) (s : ConversationManager) :
    ConversationManager :=
  tus.foldl
    (fun acc tu =>
      { acc with
        tool_calls := insertA tu.toolUseId tu acc.tool_calls
        pending_tool_uses := setAdd tu.toolUseId acc.pending_tool_uses
        error_counts := insertA tu.toolUseId 0 acc.error_counts })
    s

/-- `process_bedrock_response` (lines 128-196).  When `output.message` is
present: extract the text and the `toolUse` blocks, register every tool use,
append the assistant turn with the content blocks verbatim when they are
nonempty, and transition to `PROCESSING_TOOLS` when at least one tool use was
found and to `IDLE` otherwise.  When `output.message` is absent nothing
changes.  Text extraction and tool registration are independent effects of the
single pass of lines 156-175 and are embedded as separate traversals. -/
def process_bedrock_response (response : BedrockResponse) (now : Nat)
    (s : ConversationManager) : ProcessedResponse × ConversationManager :=
  let stop := response.stopReason.getD "unknown"
  match response.output with
  | none => ({ text := "", tool_uses := [], stop_reason := stop }, s)
  | some content_blocks =>
    let tus := extractToolUses content_blocks
    let s1 := registerToolUses tus s
    let s2 :=
      if content_blocks.isEmpty then s1
      else { s1 with messages := s1.messages ++ [{ role := .assistant, content := content_blocks }] }
    let s3 :=
      if tus.isEmpty then transition_to .IDLE now s2
      else transition_to .PROCESSING_TOOLS now s2
    ({ text := extractText content_blocks, tool_uses := tus, stop_reason := stop }, s3)

/-- The inner scan of one message performed by lines 218-226: in an assistant
turn, the first `toolUse` block whose `toolUseId` matches. -/
def findToolUseInMsg (tool_use_id : String) (m : Message) : Option ToolUse :=
  if m.role = .assistant then
    m.content.findSome? (fun b =>
      match b with
      | .toolUse tu => if tu.toolUseId = tool_use_id then some tu else none
      | _ => none)
  else none

/-- The history scan of lines 216-226.  The Python loop visits every message
(the inner loop breaks at the first matching block of a message, the outer
loop continues), so the `tool_calls` entry it leaves behind comes from the
last message containing a match; the recursion below returns exactly that
last match. -/
def scanHistory (tool_use_id : String) : List Message → Option ToolUse
  | [] => none
  | m :: rest =>
    match scanHistory tool_use_id rest with
    | some tu => some tu
    | none => findToolUseInMsg tool_use_id m

/-- The terminal-result tail of `add_tool_result` (lines 255-294): append the
`toolResult` user turn, mark the id used, drop it from pending, clear the
current tool id when it matches, and transition to `CONTINUING` when the
pending set became empty while in `PROCESSING_TOOLS`. -/
def finalize_tool_result (tool_use_id : String) (result : ToolCallResult)
    (now : Nat) (s : ConversationManager) : Option Message × ConversationManager :=
  let msg := toolResultMessage tool_use_id result
  let s1 :=
    { s with
      messages := s.messages ++ [msg]
      used_tool_results := setAdd tool_use_id s.used_tool_results
      pending_tool_uses := setRemove tool_use_id s.pending_tool_uses
      current_tool_use_id :=
        if s.current_tool_use_id = some tool_use_id then none else s.current_tool_use_id }
  let s2 :=
    if s1.pending_tool_uses.isEmpty ∧ s1.state = .PROCESSING_TOOLS then
      transition_to .CONTINUING now s1
    else s1
  (some msg, s2)

/-- `add_tool_result` (lines 198-294).  Step 1 (lines 211-230): an id absent
from the pending set is searched for in the assistant history; a hit re-admits
it to the pending set (and refreshes `tool_calls`), a miss returns `None` with
nothing recorded.  Step 2 (lines 232-235): an id already in
`used_tool_results` returns `None`.  Step 3 (lines 237-253): an error result
increments the id's error count; at or below `max_retries` the call returns
`None` keeping the id pending, above it the error falls through as a terminal
result.  Step 4 (lines 255-294): `finalize_tool_result`. -/
def add_tool_result (tool_use_id : String) (result : ToolCallResult) (now : Nat)
    (s : ConversationManager) : Option Message × ConversationManager :=
  let step1 : Option ConversationManager :=
    if tool_use_id ∈ s.pending_tool_uses then some s
    else
      match scanHistory tool_use_id s.messages with
      | some tu =>
        some { s with
               pending_tool_uses := setAdd tool_use_id s.pending_tool_uses
               tool_calls := insertA tool_use_id tu s.tool_calls }
      | none => none
  match step1 with
  | none => (none, s)
  | some s1 =>
    if tool_use_id ∈ s1.used_tool_results then (none, s1)
    else
      match result.error with
      | some _ =>
        let c := (lookupA tool_use_id s1.error_counts).getD 0 + 1
        let s2 := { s1 with error_counts := insertA tool_use_id c s1.error_counts }
        if c > s2.max_retries then finalize_tool_result tool_use_id result now s2
        else (none, s2)
      | none => finalize_tool_result tool_use_id result now s1

/-- The synthetic error text built by `force_continue` (lines 515-520) for a
pending tool use, naming the tool when it is known. -/
def connectivityText (tool_calls : List (String × ToolUse)) (tool_use_id : String) :
    String :=
  let tool_name :=
    match lookupA tool_use_id tool_calls with
    | some tu => tu.name
    | none => "unknown"
  "Error: Unable to complete tool " ++ tool_name ++
    " due to connectivity issues. Let's continue the conversation."

/-- The synthetic result dict of lines 517-520: a `content`-only dict (no
`error` key), carrying the connectivity message as a string. -/
def connectivityResult (tool_calls : List (String × ToolUse)) (tool_use_id : String) :
    ToolCallResult :=
  { error := none, content := some (.str (connectivityText tool_calls tool_use_id)) }

/-- The loop of `force_continue` (lines 509-523): resolve each id of a
snapshot of the pending set with the synthetic connectivity-error result,
threading the manager state through the calls. -/
def resolve_all_pending (ids : List String) (now : Nat) (s : ConversationManager) :
    ConversationManager :=
  ids.foldl
    (fun acc tool_use_id =>
      (add_tool_result tool_use_id (connectivityResult acc.tool_calls tool_use_id) now acc).2)
    s

/-- `force_continue` (lines 493-527): nothing to do in `ERROR` or `IDLE`;
otherwise resolve every pending id with a synthetic error result and
transition to `CONTINUING`. -/
def force_continue (now : Nat) (s : ConversationManager) :
    Bool × ConversationManager :=
  if s.state = .ERROR ∨ s.state = .IDLE then (false, s)
  else
    let s1 := resolve_all_pending s.pending_tool_uses now s
    (true, transition_to .CONTINUING now s1)

/-- `get_state_duration` (lines 541-551) with the clock passed explicitly. -/
def get_state_duration (now : Nat) (s : ConversationManager) : Nat :=
  match s.state_transition_time with
  | none => 0
  | some t => now - t

/-- `handle_timeout` (lines 553-581): when the current state has been held
longer than `max_duration`, force-continue from `PROCESSING_TOOLS`, record the
timeout and enter `ERROR` from `WAITING_FOR_RESPONSE`, return to `IDLE` from
`CONTINUING`, and do nothing otherwise. -/
def handle_timeout (max_duration : Nat) (now : Nat) (s : ConversationManager) :
    Bool × ConversationManager :=
  if get_state_duration now s > max_duration then
    match s.state with
    | .PROCESSING_TOOLS => force_continue now s
    | .WAITING_FOR_RESPONSE =>
      (true, transition_to .ERROR now
        { s with last_error := some "Timed out waiting for Bedrock response" })
    | .CONTINUING => (true, transition_to .IDLE now s)
    | _ => (false, s)
  else (false, s)

end ConversationManager

/-- Discriminator for `toolUse` blocks (the `"toolUse" in item` checks). -/
def isToolUseBlock : Block → Bool
  | .toolUse _ => true
  | _ => false

/-- Discriminator for `toolResult` blocks. -/
def isToolResultBlock : Block → Bool
  | .toolResult _ _ => true
  | _ => false

/-- Discriminator for `cachePoint` blocks. -/
def isCachePoint : Block → Bool
  | .cachePoint => true
  | _ => false

/-- The per-message body of `remove_cache_checkpoint` (lines 461-491): drop
the `cachePoint` blocks, then re-append any `toolUse` block that the filter
lost (a defensive step that never fires, proved below). -/
def remove_cache_checkpoint_msg (m : Message) : Message :=
  let tool_use_blocks := m.content.filter isToolUseBlock
  let newContent := m.content.filter (fun b => !isCachePoint b)
  let current_tool_use_blocks := newContent.filter isToolUseBlock
  let missing_tool_blocks :=
    tool_use_blocks.filter (fun b => !current_tool_use_blocks.contains b)
  { m with content := newContent ++ missing_tool_blocks }

/-- `remove_cache_checkpoint` applied to every message. -/
def remove_cache_checkpoint (msgs : List Message) : List Message :=
  msgs.map remove_cache_checkpoint_msg

/-- The merge loop of `_repair_message_sequence` (lines 444-457): while two
consecutive messages share a role, concatenate the second message's content
onto the first and drop the second, re-examining the merged message. -/
def mergeAdjacent : List Message → List Message
  | [] => []
  | [m] => [m]
  | m1 :: m2 :: rest =>
    if m1.role = m2.role then
      mergeAdjacent ({ role := m1.role, content := m1.content ++ m2.content } :: rest)
    else
      m1 :: mergeAdjacent (m2 :: rest)
termination_by l => l.length

namespace ConversationManager

/-- `_repair_message_sequence` (lines 414-459).  On this typed model every
message is a dict with a `role` and a list `content`, so the malformed-entry
fixes of lines 421-442 are the identity and only the merge loop of lines
444-457 remains. -/
def repair_message_sequence (s : ConversationManager) : ConversationManager :=
  { s with messages := mergeAdjacent s.messages }

/-- `get_bedrock_messages` (lines 296-335).  The structural validation of
lines 315-325 (`isinstance(msg, dict)`, presence of `role` and `content`)
cannot fail on this typed model, so `has_errors` is always false and
`_repair_message_sequence` is not invoked here; the method strips cache
points, stores the cleaned list back and returns it. -/
def get_bedrock_messages (s : ConversationManager) :
    List Message × ConversationManager :=
  let msgs := remove_cache_checkpoint s.messages
  (msgs, { s with messages := msgs })

end ConversationManager

/-!
Embedding of the tool-transport side (mcp_client.py and
mcp_server_manager.py) for the `CallTool` contract.  The network is modelled
by an explicit outcome: what the awaited remote call did.
-/
/-- What `await self.session.call_tool(...)` did inside
`McpClient.call_tool` (mcp_client.py lines 85-104): returned a result (whose
`TextContent` texts are listed in order, with the `str(result)` fallback
rendering), hit the `asyncio.timeout` bound, or raised some other exception. -/
inductive RemoteOutcome
  | result (texts : List String) (raw : String)
  | timeout
  | raised (msg : String)
deriving DecidableEq, Repr

/-- The two failure classes caught by `McpClient.call_tool`. -/
inductive McpFailure
  | timeout
  | raised (msg : String)
deriving DecidableEq, Repr

/-- The client configuration of `McpClient.__init__` (mcp_client.py lines
16-34): the fields relevant to the call contract. -/
structure McpClient where
  url : String
  timeout : Nat
deriving DecidableEq, Repr

/-- The default of the `timeout` parameter of `McpClient.__init__`
(`timeout: float = 10.0`). -/
def mcpDefaultTimeoutSeconds : Nat := 10

/-- A client built with the default timeout, as `MCPServerManager` does. -/
def mcpClientDefault (url : String) : McpClient :=
  { url := url, timeout := mcpDefaultTimeoutSeconds }

/-- The body of the `try` block of `McpClient.call_tool` (lines 86-96): the
first `TextContent` text when the result has content, the `str(result)`
rendering otherwise, and a failure for each caught exception class. -/
def call_tool_attempt : RemoteOutcome → Except McpFailure String
  | .result texts raw =>
    match texts with
    | [] => .ok raw
    | t :: _ => .ok t
  | .timeout => .error .timeout
  | .raised m => .error (.raised m)

/-- `McpClient.call_tool` (lines 85-104): the `try` body, with both `except`
arms converting the failure into a friendly error string instead of
re-raising. -/
def McpClient.call_tool (c : McpClient) (tool_name : String)
    (outcome : RemoteOutcome) : String :=
  match call_tool_attempt outcome with
  | .ok s => s
  | .error .timeout =>
    "Operation timed out after " ++ toString c.timeout ++ " seconds"
  | .error (.raised m) =>
    "Error calling tool " ++ tool_name ++ ": " ++ m

/-- What `MCPServerManager.call_tool` returns (mcp_server_manager.py lines
208-246): either the tool result passed through, or an `{"error": ...}`
mapping. -/
inductive ToolCallOutcome
  | content (s : String)
  | errorMap (msg : String)
deriving DecidableEq, Repr

/-- `MCPServerManager.call_tool` (lines 208-246): unknown tool names, missing
clients and failed connections produce `{"error": ...}` mappings; the awaited
client call is guarded by a `try` whose `except` arm also produces an
`{"error": ...}` mapping; a completed client call is returned as content.
`remote` is the outcome of the awaited call: `.error e` models an exception
raised across the await, `.ok o` a completed `McpClient.call_tool`. -/
def manager_call_tool (tool_mapping : List (String × (String × String)))
    (clients : List (String × McpClient)) (connectOk : String → Bool)
    (remote : Except String RemoteOutcome) (tool_name : String) : ToolCallOutcome :=
  match lookupA tool_name tool_mapping with
  | none => .errorMap ("Unknown tool: " ++ tool_name)
  | some (server_name, method_name) =>
    match lookupA server_name clients with
    | none => .errorMap ("No client for server: " ++ server_name)
    | some client =>
      if connectOk server_name then
        match remote with
        | .error e => .errorMap e
        | .ok outcome => .content (client.call_tool method_name outcome)
      else .errorMap ("Failed to connect to server: " ++ server_name)

/-!
Trace semantics for the driver-facing operations.  `SubmitUserTurn` is
`add_user_message` followed by the driver's transition to
`WAITING_FOR_RESPONSE` (app.py lines 904 and 935), `IngestGatewayResponse` is
`process_bedrock_response`, `ResolveToolRequest` is `add_tool_result`, and
`PrepareContinuation` is the driver's transition back to
`WAITING_FOR_RESPONSE` from `CONTINUING` (app.py line 500).  Each step carries
the clock value observed during it.
-/
/-- One driver-facing operation. -/
inductive Op
  | submitUser (text : String)
  | ingest (response : BedrockResponse)
  | resolve (tool_use_id : String) (result : ToolCallResult)
  | continueRound
deriving Repr

/-- The effect of one operation on the manager state. -/
def applyOp (op : Op) (now : Nat) (s : ConversationManager) : ConversationManager :=
  match op with
  | .submitUser text =>
    ConversationManager.transition_to .WAITING_FOR_RESPONSE now
      (ConversationManager.add_user_message text s).2
  | .ingest response => (ConversationManager.process_bedrock_response response now s).2
  | .resolve tool_use_id result =>
    (ConversationManager.add_tool_result tool_use_id result now s).2
  | .continueRound => ConversationManager.transition_to .WAITING_FOR_RESPONSE now s

/-- The documented state precondition of each operation (spec section 4.1). -/
def Precond (op : Op) (s : ConversationManager) : Prop :=
  match op with
  | .submitUser _ => s.state = .IDLE
  | .ingest _ => s.state = .WAITING_FOR_RESPONSE
  | .resolve _ _ => s.state = .PROCESSING_TOOLS
  | .continueRound => s.state = .CONTINUING

instance instDecPrecond (op : Op) (s : ConversationManager) : Decidable (Precond op s) := by
  cases op <;> simp only [Precond] <;> infer_instance

/-- Execution of a timed operation sequence. -/
def runOps (s : ConversationManager) : List (Op × Nat) → ConversationManager
  | [] => s
  | (op, t) :: rest => runOps (applyOp op t s) rest

/-- A sequence respecting the documented state preconditions. -/
def LegalPre (s : ConversationManager) : List (Op × Nat) → Prop
  | [] => True
  | (op, t) :: rest => Precond op s ∧ LegalPre (applyOp op t s) rest

instance instDecLegalPre : (l : List (Op × Nat)) → (s : ConversationManager) →
    Decidable (LegalPre s l)
  | [], _ => isTrue trivial
  | (op, t) :: rest, s =>
    haveI := instDecLegalPre rest (applyOp op t s)
    inferInstanceAs (Decidable (Precond op s ∧ LegalPre (applyOp op t s) rest))

/-!
The transcript invariants of spec section 3: every `toolResult` block lives in
a user turn strictly after the assistant turn carrying the matching `toolUse`
block, and `toolUse` ids are unique across the transcript.
-/
/-- Some earlier assistant turn carries a `toolUse` block with this id. -/
def HasRequest (tool_use_id : String) (msgs : List Message) : Prop :=
  ∃ m ∈ msgs, m.role = .assistant ∧
    ∃ tu : ToolUse, tu.toolUseId = tool_use_id ∧ Block.toolUse tu ∈ m.content

/-- Helper for the alternation invariant: every `toolResult` block of the
remaining messages sits in a user turn and has a matching request in the
strictly earlier part of the transcript (`seen` plus the preceding remainder). -/
def AltAux : List Message → List Message → Prop
  | _, [] => True
  | seen, m :: rest =>
    (∀ tool_use_id rc, Block.toolResult tool_use_id rc ∈ m.content →
      m.role = .user ∧ HasRequest tool_use_id seen) ∧
    AltAux (seen ++ [m]) rest

/-- The alternation invariant of spec section 3. -/
def Alternation (msgs : List Message) : Prop := AltAux [] msgs

/-- All `toolUse` ids occurring anywhere in a transcript, in order. -/
def transcriptToolUseIds (msgs : List Message) : List String :=
  (msgs.map (fun m => toolUseIdsOfBlocks m.content)).flatten

/-- The id-uniqueness invariant of spec section 3. -/
def UniqueToolUseIds (msgs : List Message) : Prop :=
  (transcriptToolUseIds msgs).Nodup

/-- Well-formedness of an ingested gateway response relative to the current
transcript: the response consists of text / tool-request (and cache-point)
blocks only, its tool-request ids are pairwise distinct, and none of them has
appeared in the transcript before.  This is the environmental assumption under
which the amended invariant claim holds; the code never checks it. -/
def WfResponse (response : BedrockResponse) (s : ConversationManager) : Prop :=
  match response.output with
  | none => True
  | some blocks =>
    (∀ b ∈ blocks, isToolResultBlock b = false) ∧
    (toolUseIdsOfBlocks blocks).Nodup ∧
    ∀ tool_use_id ∈ toolUseIdsOfBlocks blocks,
      tool_use_id ∉ transcriptToolUseIds s.messages

instance instDecWfResponse (response : BedrockResponse) (s : ConversationManager) :
    Decidable (WfResponse response s) := by
  unfold WfResponse
  match response.output with
  | none => exact inferInstanceAs (Decidable True)
  | some blocks => infer_instance

/-- The environmental assumption attached to each operation: only `ingest`
carries one. -/
def WfOp (op : Op) (s : ConversationManager) : Prop :=
  match op with
  | .ingest response => WfResponse response s
  | _ => True

instance instDecWfOp (op : Op) (s : ConversationManager) : Decidable (WfOp op s) := by
  cases op <;> simp only [WfOp] <;> infer_instance

/-- A sequence respecting both the documented state preconditions and the
response well-formedness assumption. -/
def LegalWf (s : ConversationManager) : List (Op × Nat) → Prop
  | [] => True
  | (op, t) :: rest => Precond op s ∧ WfOp op s ∧ LegalWf (applyOp op t s) rest

instance instDecLegalWf : (l : List (Op × Nat)) → (s : ConversationManager) →
    Decidable (LegalWf s l)
  | [], _ => isTrue trivial
  | (op, t) :: rest, s =>
    haveI := instDecLegalWf rest (applyOp op t s)
    inferInstanceAs (Decidable (Precond op s ∧ WfOp op s ∧ LegalWf (applyOp op t s) rest))

/-- No two consecutive turns of a transcript share a role. -/
def rolesAlternate : List Message → Prop
  | [] => True
  | [_] => True
  | m1 :: m2 :: rest => m1.role ≠ m2.role ∧ rolesAlternate (m2 :: rest)

instance instDecRolesAlternate : (msgs : List Message) → Decidable (rolesAlternate msgs)
  | [] => isTrue trivial
  | [_] => isTrue trivial
  | m1 :: m2 :: rest =>
    haveI := instDecRolesAlternate (m2 :: rest)
    inferInstanceAs (Decidable (m1.role ≠ m2.role ∧ rolesAlternate (m2 :: rest)))

instance instDecUniqueToolUseIds (msgs : List Message) :
    Decidable (UniqueToolUseIds msgs) :=
  inferInstanceAs (Decidable (List.Nodup _))

/-!
Concrete fixtures used by witnesses and counterexamples.
-/
/-- A sample tool request. -/
def sampleToolUse1 : ToolUse := { toolUseId := "t1", name := "get-product", input := "productX" }

/-- A second sample tool request. -/
def sampleToolUse2 : ToolUse := { toolUseId := "t2", name := "get-order", input := "order7" }

/-- A successful string result. -/
def sampleOkResult : ToolCallResult := { error := none, content := some (.str "ok") }

/-- An error result. -/
def sampleErrResult : ToolCallResult := { error := some "boom", content := none }

/-- A gateway response with one text block and one tool request. -/
def respOneTool : BedrockResponse :=
  { stopReason := some "tool_use", output := some [.text "calling", .toolUse sampleToolUse1] }

/-- A gateway response with two tool requests. -/
def respTwoTools : BedrockResponse :=
  { stopReason := some "tool_use", output := some [.toolUse sampleToolUse1, .toolUse sampleToolUse2] }

/-- A gateway response reusing one id for two tool requests. -/
def respDupIds : BedrockResponse :=
  { stopReason := some "tool_use"
    output := some [.toolUse { toolUseId := "t1", name := "a", input := "x" },
                    .toolUse { toolUseId := "t1", name := "b", input := "y" }] }

/-- A final text-only gateway response. -/
def respFinal : BedrockResponse :=
  { stopReason := some "end_turn", output := some [.text "X costs 9.99"] }

/-- A degenerate gateway response whose output message has no content blocks. -/
def respEmptyContent : BedrockResponse :=
  { stopReason := some "end_turn", output := some [] }

/-- A manager that has ingested one tool request and is processing it. -/
def stateOnePending : ConversationManager :=
  runOps ConversationManager.init [(.submitUser "hi", 0), (.ingest respOneTool, 1)]

/-- A manager that has ingested two tool requests and is processing them. -/
def stateTwoPending : ConversationManager :=
  runOps ConversationManager.init [(.submitUser "hi", 0), (.ingest respTwoTools, 1)]

/-- A manager that has ingested one tool request and recorded its successful
result once. -/
def stateResolved : ConversationManager :=
  runOps ConversationManager.init
    [(.submitUser "hi", 0), (.ingest respOneTool, 1), (.resolve "t1" sampleOkResult, 2)]

/-- Delivery of `k` consecutive results for the same id through
`add_tool_result`, discarding the per-call return values (the driver redispatch
loop of the retry policy). -/
def deliverResults (tool_use_id : String) (result : ToolCallResult) (now : Nat) :
    Nat → ConversationManager → ConversationManager
  | 0, s => s
  | k + 1, s =>
    deliverResults tool_use_id result now k
      (ConversationManager.add_tool_result tool_use_id result now s).2

/-- The operation sequence producing two consecutive tool-result user turns. -/
def traceTwoResolved : List (Op × Nat) :=
  [(.submitUser "hi", 0), (.ingest respTwoTools, 1),
   (.resolve "t1" sampleOkResult, 2), (.resolve "t2" sampleOkResult, 3)]

/-- The manager after resolving both tool requests of one round. -/
def stateTwoResolved : ConversationManager :=
  runOps ConversationManager.init traceTwoResolved

/-- The inductive invariant of the conversation session: the transcript
satisfies the alternation and id-uniqueness invariants, and every pending id
has a matching request in some assistant turn of the transcript. -/
def SessionInv (s : ConversationManager) : Prop :=
  Alternation s.messages ∧ UniqueToolUseIds s.messages ∧
  ∀ tool_use_id ∈ s.pending_tool_uses, HasRequest tool_use_id s.messages

/-- The operation sequence that reuses one tool-request id within one
gateway response while respecting every documented state precondition. -/
def traceDupIds : List (Op × Nat) :=
  [(.submitUser "hi", 0), (.ingest respDupIds, 1)]

/-- The full round-trip scenario of the spec's section 8: user turn, one tool
request, its resolution, the follow-up gateway call, and the final text
response. -/
def traceScenario : List (Op × Nat) :=
  [(.submitUser "show me product X", 0), (.ingest respOneTool, 1),
   (.resolve "t1" sampleOkResult, 2), (.continueRound, 3), (.ingest respFinal, 4)]

/-- A precondition-respecting sequence in which the first tool result is
delivered twice: the duplicate delivery re-admits the already-resolved id
`t1` to the pending set while `t2` is still pending. -/
def traceDupResolve : List (Op × Nat) :=
  [(.submitUser "hi", 0), (.ingest respTwoTools, 1),
   (.resolve "t1" sampleOkResult, 2), (.resolve "t1" sampleOkResult, 3)]

/-!
Helper lemmas about the dict and set models.
-/
theorem lookupA_insertA_self {α : Type} (k : String) (v : α) (l : List (String × α)) :
    lookupA k (insertA k v l) = some v := by
  induction l with
  | nil => simp [insertA, lookupA]
  | cons hd tl ih =>
    obtain ⟨k', v'⟩ := hd
    by_cases h : k' = k
    · simp [insertA, h, lookupA]
    · simp [insertA, h, lookupA, ih]

theorem lookupA_insertA_ne {α : Type} {k k' : String} (v : α) (l : List (String × α))
    (h : k' ≠ k) : lookupA k (insertA k' v l) = lookupA k l := by
  induction l with
  | nil => simp [insertA, lookupA, h]
  | cons hd tl ih =>
    obtain ⟨k0, v0⟩ := hd
    by_cases h0 : k0 = k'
    · subst h0
      simp [insertA, lookupA, h]
    · simp only [insertA, if_neg h0]
      by_cases h1 : k0 = k
      · simp [lookupA, h1]
      · simp [lookupA, h1, ih]

theorem insertA_self_of_lookupA {α : Type} {k : String} {v : α} {l : List (String × α)}
    (h : lookupA k l = some v) : insertA k v l = l := by
  induction l with
  | nil => simp [lookupA] at h
  | cons hd tl ih =>
    obtain ⟨k0, v0⟩ := hd
    by_cases h0 : k0 = k
    · subst h0
      simp [lookupA] at h
      simp [insertA, h]
    · simp [lookupA, h0] at h
      simp [insertA, h0, ih h]

theorem insertA_insertA_self {α : Type} (k : String) (v w : α) (l : List (String × α)) :
    insertA k v (insertA k w l) = insertA k v l := by
  induction l with
  | nil => simp [insertA]
  | cons hd tl ih =>
    obtain ⟨k0, v0⟩ := hd
    by_cases h0 : k0 = k
    · simp [insertA, h0]
    · simp [insertA, h0, ih]

theorem mem_setAdd {x y : String} {l : List String} :
    x ∈ setAdd y l ↔ x = y ∨ x ∈ l := by
  unfold setAdd
  by_cases h : y ∈ l
  · simp only [if_pos h]
    constructor
    · exact fun hx => Or.inr hx
    · rintro (rfl | hx)
      · exact h
      · exact hx
  · simp [if_neg h, List.mem_append]
    tauto

theorem setAdd_nodup {x : String} {l : List String} (h : l.Nodup) :
    (setAdd x l).Nodup := by
  unfold setAdd
  by_cases hx : x ∈ l
  · simpa [if_pos hx]
  · rw [if_neg hx]
    refine List.Nodup.append h (List.nodup_singleton x) ?_
    intro a ha hb
    simp only [List.mem_singleton] at hb
    exact hx (hb ▸ ha)

theorem mem_setRemove {x y : String} {l : List String} :
    x ∈ setRemove y l ↔ x ∈ l ∧ x ≠ y := by
  simp [setRemove]

theorem setRemove_nodup {x : String} {l : List String} (h : l.Nodup) :
    (setRemove x l).Nodup :=
  List.Nodup.filter _ h

/-!
Lemmas about the history scan and the transcript invariant predicates.
-/
theorem findSome?_toolUse_eq_some {tool_use_id : String} {bs : List Block} {tu : ToolUse}
    (h : bs.findSome? (fun b =>
      match b with
      | .toolUse tu0 => if tu0.toolUseId = tool_use_id then some tu0 else none
      | _ => none) = some tu) :
    tu.toolUseId = tool_use_id ∧ Block.toolUse tu ∈ bs := by
  induction bs with
  | nil => simp at h
  | cons b rest ih =>
    rw [List.findSome?_cons] at h
    match b with
    | .text s1 =>
      obtain ⟨h1, h2⟩ := ih h
      exact ⟨h1, List.mem_cons_of_mem _ h2⟩
    | .cachePoint =>
      obtain ⟨h1, h2⟩ := ih h
      exact ⟨h1, List.mem_cons_of_mem _ h2⟩
    | .toolResult i c =>
      obtain ⟨h1, h2⟩ := ih h
      exact ⟨h1, List.mem_cons_of_mem _ h2⟩
    | .toolUse tu0 =>
      by_cases hid : tu0.toolUseId = tool_use_id
      · have h2 : some tu0 = some tu := by
          simpa only [if_pos hid] using h
        obtain rfl : tu0 = tu := by injection h2
        exact ⟨hid, List.mem_cons_self _ _⟩
      · have h2 : rest.findSome? (fun b =>
            match b with
            | .toolUse tu0 => if tu0.toolUseId = tool_use_id then some tu0 else none
            | _ => none) = some tu := by
          simpa only [if_neg hid] using h
        obtain ⟨h1, h3⟩ := ih h2
        exact ⟨h1, List.mem_cons_of_mem _ h3⟩

theorem findToolUseInMsg_eq_some {tool_use_id : String} {m : Message} {tu : ToolUse}
    (h : ConversationManager.findToolUseInMsg tool_use_id m = some tu) :
    m.role = .assistant ∧ tu.toolUseId = tool_use_id ∧ Block.toolUse tu ∈ m.content := by
  unfold ConversationManager.findToolUseInMsg at h
  by_cases hr : m.role = .assistant
  · rw [if_pos hr] at h
    exact ⟨hr, findSome?_toolUse_eq_some h⟩
  · rw [if_neg hr] at h
    simp at h

theorem findToolUseInMsg_eq_none_iff {tool_use_id : String} {m : Message} :
    ConversationManager.findToolUseInMsg tool_use_id m = none ↔
      ¬ (m.role = .assistant ∧
        ∃ tu : ToolUse, tu.toolUseId = tool_use_id ∧ Block.toolUse tu ∈ m.content) := by
  unfold ConversationManager.findToolUseInMsg
  by_cases hr : m.role = .assistant
  · rw [if_pos hr]
    simp only [hr, true_and]
    rw [List.findSome?_eq_none_iff]
    constructor
    · rintro h ⟨tu, hid, hmem⟩
      have := h _ hmem
      simp [hid] at this
    · intro h b hb
      match b with
      | .text s1 => rfl
      | .cachePoint => rfl
      | .toolResult i c => rfl
      | .toolUse tu0 =>
        simp only
        by_cases hid : tu0.toolUseId = tool_use_id
        · exact absurd ⟨tu0, hid, hb⟩ h
        · rw [if_neg hid]
  · rw [if_neg hr]
    simp [hr]

theorem scanHistory_eq_some {tool_use_id : String} {msgs : List Message} {tu : ToolUse}
    (h : ConversationManager.scanHistory tool_use_id msgs = some tu) :
    tu.toolUseId = tool_use_id ∧ HasRequest tool_use_id msgs := by
  induction msgs with
  | nil => simp [ConversationManager.scanHistory] at h
  | cons m rest ih =>
    rw [ConversationManager.scanHistory] at h
    match hrest : ConversationManager.scanHistory tool_use_id rest with
    | some tu0 =>
      rw [hrest] at h
      obtain rfl : tu0 = tu := by simpa using h
      obtain ⟨h1, m0, hm0, h2⟩ := ih hrest
      exact ⟨h1, m0, List.mem_cons_of_mem _ hm0, h2⟩
    | none =>
      rw [hrest] at h
      simp only at h
      obtain ⟨h1, h2, h3⟩ := findToolUseInMsg_eq_some h
      exact ⟨h2, m, List.mem_cons_self _ _, h1, tu, h2, h3⟩

theorem scanHistory_eq_none_iff {tool_use_id : String} {msgs : List Message} :
    ConversationManager.scanHistory tool_use_id msgs = none ↔
      ¬ HasRequest tool_use_id msgs := by
  induction msgs with
  | nil => simp [ConversationManager.scanHistory, HasRequest]
  | cons m rest ih =>
    rw [ConversationManager.scanHistory]
    constructor
    · intro h hreq
      match hrest : ConversationManager.scanHistory tool_use_id rest with
      | some tu0 => rw [hrest] at h; simp at h
      | none =>
        rw [hrest] at h
        simp only at h
        obtain ⟨m0, hm0, hrole, tu, hid, hmem⟩ := hreq
        rcases List.mem_cons.mp hm0 with rfl | hm0
        · exact absurd ⟨hrole, tu, hid, hmem⟩ (findToolUseInMsg_eq_none_iff.mp h)
        · exact (ih.mp hrest) ⟨m0, hm0, hrole, tu, hid, hmem⟩
    · intro hreq
      have hrest : ConversationManager.scanHistory tool_use_id rest = none := by
        rw [ih]
        rintro ⟨m0, hm0, hrole, tu, hid, hmem⟩
        exact hreq ⟨m0, List.mem_cons_of_mem _ hm0, hrole, tu, hid, hmem⟩
      rw [hrest]
      simp only
      rw [findToolUseInMsg_eq_none_iff]
      rintro ⟨hrole, tu, hid, hmem⟩
      exact hreq ⟨m, List.mem_cons_self _ _, hrole, tu, hid, hmem⟩

theorem HasRequest_append_left {tool_use_id : String} {msgs l : List Message}
    (h : HasRequest tool_use_id msgs) : HasRequest tool_use_id (msgs ++ l) := by
  obtain ⟨m, hm, hrest⟩ := h
  exact ⟨m, List.mem_append_left _ hm, hrest⟩

theorem altAux_snoc {seen l : List Message} {m : Message} :
    AltAux seen (l ++ [m]) ↔
      AltAux seen l ∧
        (∀ tool_use_id rc, Block.toolResult tool_use_id rc ∈ m.content →
          m.role = .user ∧ HasRequest tool_use_id (seen ++ l)) := by
  induction l generalizing seen with
  | nil => simp [AltAux]
  | cons hd tl ih =>
    simp only [List.cons_append, AltAux, List.append_eq]
    rw [ih]
    simp only [List.append_assoc, List.singleton_append]
    tauto

theorem alternation_snoc {msgs : List Message} {m : Message} :
    Alternation (msgs ++ [m]) ↔
      Alternation msgs ∧
        (∀ tool_use_id rc, Block.toolResult tool_use_id rc ∈ m.content →
          m.role = .user ∧ HasRequest tool_use_id msgs) := by
  unfold Alternation
  rw [altAux_snoc]
  simp

theorem mem_extractToolUses {tu : ToolUse} {blocks : List Block} :
    tu ∈ extractToolUses blocks ↔ Block.toolUse tu ∈ blocks := by
  induction blocks with
  | nil => simp [extractToolUses]
  | cons b rest ih =>
    match b with
    | .text s1 => simp [extractToolUses, ih]
    | .cachePoint => simp [extractToolUses, ih]
    | .toolResult i c => simp [extractToolUses, ih]
    | .toolUse tu0 =>
      simp only [extractToolUses, List.mem_cons]
      rw [ih]
      constructor
      · rintro (rfl | h)
        · exact Or.inl rfl
        · exact Or.inr h
      · rintro (h | h)
        · exact Or.inl (by injection h)
        · exact Or.inr h

theorem transcriptToolUseIds_append (a b : List Message) :
    transcriptToolUseIds (a ++ b) = transcriptToolUseIds a ++ transcriptToolUseIds b := by
  simp [transcriptToolUseIds]

theorem transcriptToolUseIds_singleton (m : Message) :
    transcriptToolUseIds [m] = toolUseIdsOfBlocks m.content := by
  simp [transcriptToolUseIds]

theorem mem_transcriptToolUseIds {tool_use_id : String} {msgs : List Message} :
    tool_use_id ∈ transcriptToolUseIds msgs ↔
      ∃ m ∈ msgs, ∃ tu : ToolUse, tu.toolUseId = tool_use_id ∧ Block.toolUse tu ∈ m.content := by
  simp only [transcriptToolUseIds, List.mem_flatten, List.mem_map, toolUseIdsOfBlocks]
  constructor
  · rintro ⟨ids, ⟨m, hm, rfl⟩, hid⟩
    obtain ⟨tu, htu, rfl⟩ := List.mem_map.mp hid
    exact ⟨m, hm, tu, rfl, mem_extractToolUses.mp htu⟩
  · rintro ⟨m, hm, tu, rfl, hmem⟩
    exact ⟨_, ⟨m, hm, rfl⟩, List.mem_map.mpr ⟨tu, mem_extractToolUses.mpr hmem, rfl⟩⟩

theorem HasRequest_of_mem_assistant_ids {tool_use_id : String} {msgs : List Message} :
    HasRequest tool_use_id msgs → tool_use_id ∈ transcriptToolUseIds msgs := by
  rintro ⟨m, hm, _, tu, hid, hmem⟩
  exact mem_transcriptToolUseIds.mpr ⟨m, hm, tu, hid, hmem⟩

/-!
Claim theorems.
-/
/-- C10: `transition_to` into `IDLE` clears the pending set, the current tool
id and the last error while leaving the transcript, the tool-call map, the
resolved set and the retry counters unchanged; a transition into any other
state changes only the state and the transition timestamp. -/
theorem c10_transition_frame (s : ConversationManager) (new_state : ConversationState)
    (now : Nat) :
    (new_state = .IDLE →
      (ConversationManager.transition_to new_state now s).pending_tool_uses = [] ∧
      (ConversationManager.transition_to new_state now s).current_tool_use_id = none ∧
      (ConversationManager.transition_to new_state now s).last_error = none ∧
      (ConversationManager.transition_to new_state now s).messages = s.messages ∧
      (ConversationManager.transition_to new_state now s).tool_calls = s.tool_calls ∧
      (ConversationManager.transition_to new_state now s).used_tool_results = s.used_tool_results ∧
      (ConversationManager.transition_to new_state now s).error_counts = s.error_counts ∧
      (ConversationManager.transition_to new_state now s).state = new_state ∧
      (ConversationManager.transition_to new_state now s).state_transition_time = some now) ∧
    (new_state ≠ .IDLE →
      ConversationManager.transition_to new_state now s =
        { s with state := new_state, state_transition_time := some now }) := by
  constructor
  · intro h
    subst h
    simp [ConversationManager.transition_to]
  · intro h
    simp [ConversationManager.transition_to, h]

/-- Witness for C10 at a concrete state and both kinds of target state. -/
theorem c10_transition_frame_witness :
    ((ConversationState.IDLE = .IDLE →
      (ConversationManager.transition_to .IDLE 7 stateOnePending).pending_tool_uses = [] ∧
      (ConversationManager.transition_to .IDLE 7 stateOnePending).current_tool_use_id = none ∧
      (ConversationManager.transition_to .IDLE 7 stateOnePending).last_error = none ∧
      (ConversationManager.transition_to .IDLE 7 stateOnePending).messages = stateOnePending.messages ∧
      (ConversationManager.transition_to .IDLE 7 stateOnePending).tool_calls = stateOnePending.tool_calls ∧
      (ConversationManager.transition_to .IDLE 7 stateOnePending).used_tool_results = stateOnePending.used_tool_results ∧
      (ConversationManager.transition_to .IDLE 7 stateOnePending).error_counts = stateOnePending.error_counts ∧
      (ConversationManager.transition_to .IDLE 7 stateOnePending).state = .IDLE ∧
      (ConversationManager.transition_to .IDLE 7 stateOnePending).state_transition_time = some 7) ∧
    (ConversationState.IDLE ≠ .IDLE →
      ConversationManager.transition_to .IDLE 7 stateOnePending =
        { stateOnePending with state := .IDLE, state_transition_time := some 7 })) ∧
    ((ConversationState.ERROR = .IDLE →
      (ConversationManager.transition_to .ERROR 7 stateOnePending).pending_tool_uses = [] ∧
      (ConversationManager.transition_to .ERROR 7 stateOnePending).current_tool_use_id = none ∧
      (ConversationManager.transition_to .ERROR 7 stateOnePending).last_error = none ∧
      (ConversationManager.transition_to .ERROR 7 stateOnePending).messages = stateOnePending.messages ∧
      (ConversationManager.transition_to .ERROR 7 stateOnePending).tool_calls = stateOnePending.tool_calls ∧
      (ConversationManager.transition_to .ERROR 7 stateOnePending).used_tool_results = stateOnePending.used_tool_results ∧
      (ConversationManager.transition_to .ERROR 7 stateOnePending).error_counts = stateOnePending.error_counts ∧
      (ConversationManager.transition_to .ERROR 7 stateOnePending).state = .ERROR ∧
      (ConversationManager.transition_to .ERROR 7 stateOnePending).state_transition_time = some 7) ∧
    (ConversationState.ERROR ≠ .IDLE →
      ConversationManager.transition_to .ERROR 7 stateOnePending =
        { stateOnePending with state := .ERROR, state_transition_time := some 7 })) :=
  ⟨c10_transition_frame stateOnePending .IDLE 7, c10_transition_frame stateOnePending .ERROR 7⟩

/-!
Field lemmas for `transition_to` and `registerToolUses`.
-/
theorem transition_to_messages (ns : ConversationState) (now : Nat)
    (s : ConversationManager) :
    (ConversationManager.transition_to ns now s).messages = s.messages := by
  unfold ConversationManager.transition_to
  by_cases h : ns = .IDLE <;> simp [h]

theorem transition_to_tool_calls (ns : ConversationState) (now : Nat)
    (s : ConversationManager) :
    (ConversationManager.transition_to ns now s).tool_calls = s.tool_calls := by
  unfold ConversationManager.transition_to
  by_cases h : ns = .IDLE <;> simp [h]

theorem transition_to_used (ns : ConversationState) (now : Nat)
    (s : ConversationManager) :
    (ConversationManager.transition_to ns now s).used_tool_results = s.used_tool_results := by
  unfold ConversationManager.transition_to
  by_cases h : ns = .IDLE <;> simp [h]

theorem transition_to_error_counts (ns : ConversationState) (now : Nat)
    (s : ConversationManager) :
    (ConversationManager.transition_to ns now s).error_counts = s.error_counts := by
  unfold ConversationManager.transition_to
  by_cases h : ns = .IDLE <;> simp [h]

theorem transition_to_max_retries (ns : ConversationState) (now : Nat)
    (s : ConversationManager) :
    (ConversationManager.transition_to ns now s).max_retries = s.max_retries := by
  unfold ConversationManager.transition_to
  by_cases h : ns = .IDLE <;> simp [h]

theorem transition_to_state (ns : ConversationState) (now : Nat)
    (s : ConversationManager) :
    (ConversationManager.transition_to ns now s).state = ns := by
  unfold ConversationManager.transition_to
  by_cases h : ns = .IDLE <;> simp [h]

theorem transition_to_pending (ns : ConversationState) (now : Nat)
    (s : ConversationManager) :
    (ConversationManager.transition_to ns now s).pending_tool_uses =
      if ns = .IDLE then [] else s.pending_tool_uses := by
  unfold ConversationManager.transition_to
  by_cases h : ns = .IDLE <;> simp [h]

theorem registerToolUses_messages (tus : List ToolUse) (s : ConversationManager) :
    (ConversationManager.registerToolUses tus s).messages = s.messages := by
  induction tus generalizing s with
  | nil => rfl
  | cons tu rest ih => exact ih _

theorem registerToolUses_state (tus : List ToolUse) (s : ConversationManager) :
    (ConversationManager.registerToolUses tus s).state = s.state := by
  induction tus generalizing s with
  | nil => rfl
  | cons tu rest ih => exact ih _

theorem registerToolUses_used (tus : List ToolUse) (s : ConversationManager) :
    (ConversationManager.registerToolUses tus s).used_tool_results = s.used_tool_results := by
  induction tus generalizing s with
  | nil => rfl
  | cons tu rest ih => exact ih _

theorem registerToolUses_max_retries (tus : List ToolUse) (s : ConversationManager) :
    (ConversationManager.registerToolUses tus s).max_retries = s.max_retries := by
  induction tus generalizing s with
  | nil => rfl
  | cons tu rest ih => exact ih _

theorem registerToolUses_pending_mem (tus : List ToolUse) (s : ConversationManager)
    (x : String) :
    x ∈ (ConversationManager.registerToolUses tus s).pending_tool_uses ↔
      x ∈ s.pending_tool_uses ∨ x ∈ tus.map (fun tu => tu.toolUseId) := by
  induction tus generalizing s with
  | nil => simp [ConversationManager.registerToolUses]
  | cons tu rest ih =>
    show x ∈ (ConversationManager.registerToolUses rest _).pending_tool_uses ↔ _
    rw [ih]
    simp only [mem_setAdd, List.map_cons, List.mem_cons]
    tauto

theorem registerToolUses_error_counts_lookup (tus : List ToolUse)
    (s : ConversationManager) (x : String) :
    lookupA x (ConversationManager.registerToolUses tus s).error_counts =
      if x ∈ tus.map (fun tu => tu.toolUseId) then some 0
      else lookupA x s.error_counts := by
  induction tus generalizing s with
  | nil => simp [ConversationManager.registerToolUses]
  | cons tu rest ih =>
    show lookupA x (ConversationManager.registerToolUses rest _).error_counts = _
    rw [ih]
    by_cases hrest : x ∈ rest.map (fun tu => tu.toolUseId)
    · simp [hrest]
    · by_cases hx : tu.toolUseId = x
      · simp only [hrest, if_neg hrest, List.map_cons, List.mem_cons]
        rw [if_pos (Or.inl hx.symm)]
        simpa [hx] using lookupA_insertA_self x (0 : Nat) s.error_counts
      · have hne : x ∉ (tu :: rest).map (fun tu => tu.toolUseId) := by
          simp only [List.map_cons, List.mem_cons]
          rintro (h | h)
          · exact hx h.symm
          · exact hrest h
        rw [if_neg hrest, if_neg hne]
        exact lookupA_insertA_ne _ _ (fun h => hx h)

theorem registerToolUses_tool_calls_lookup (tus : List ToolUse)
    (s : ConversationManager) (x : String) (hx : x ∉ tus.map (fun tu => tu.toolUseId)) :
    lookupA x (ConversationManager.registerToolUses tus s).tool_calls =
      lookupA x s.tool_calls := by
  induction tus generalizing s with
  | nil => rfl
  | cons tu rest ih =>
    simp only [List.map_cons, List.mem_cons] at hx
    push_neg at hx
    show lookupA x (ConversationManager.registerToolUses rest _).tool_calls = _
    rw [ih _ (by simpa using hx.2)]
    exact lookupA_insertA_ne _ _ (fun h => hx.1 h.symm)

theorem registerToolUses_tool_calls_isSome (tus : List ToolUse)
    (s : ConversationManager) (x : String) (hx : x ∈ tus.map (fun tu => tu.toolUseId)) :
    (lookupA x (ConversationManager.registerToolUses tus s).tool_calls).isSome := by
  induction tus generalizing s with
  | nil => simp at hx
  | cons tu rest ih =>
    by_cases hrest : x ∈ rest.map (fun tu => tu.toolUseId)
    · exact ih _ hrest
    · simp only [List.map_cons, List.mem_cons] at hx
      rcases hx with hx | hx
      · show (lookupA x (ConversationManager.registerToolUses rest _).tool_calls).isSome
        rw [registerToolUses_tool_calls_lookup rest _ x hrest]
        rw [hx, lookupA_insertA_self]
        rfl
      · exact absurd hx hrest

/-- C5 counterexample: from the freshly initialized `IDLE` manager,
`add_user_message` succeeds but leaves the state `IDLE`; it does not
transition to `WAITING_FOR_RESPONSE` (the driver performs that transition
separately). -/
theorem c5_counterexample :
    ConversationManager.init.state = .IDLE ∧
    (ConversationManager.add_user_message "hi" ConversationManager.init).1.isSome ∧
    (ConversationManager.add_user_message "hi" ConversationManager.init).2.state = .IDLE ∧
    (ConversationManager.add_user_message "hi" ConversationManager.init).2.state ≠
      .WAITING_FOR_RESPONSE := by
  decide

/-- C5 (amended): `add_user_message` requires state `IDLE` and fails
(returning `None` and leaving the whole manager state unchanged) in every
other state; in `IDLE` it appends exactly one user turn containing a single
text block with the given content and returns it, leaving the state `IDLE` —
the transition to `WAITING_FOR_RESPONSE` is performed by the driver, not by
this method. -/
theorem c5_add_user_message (s : ConversationManager) (content : String) :
    (s.state ≠ .IDLE → ConversationManager.add_user_message content s = (none, s)) ∧
    (s.state = .IDLE →
      ConversationManager.add_user_message content s =
        (some { role := .user, content := [.text content] },
         { s with messages := s.messages ++ [{ role := .user, content := [.text content] }] })) := by
  unfold ConversationManager.add_user_message
  constructor
  · intro h
    rw [if_pos h]
  · intro h
    rw [if_neg (by simp [h])]

/-- Witness for C5 at concrete inputs: success from `IDLE` and refusal from
`PROCESSING_TOOLS`. -/
theorem c5_add_user_message_witness :
    ConversationManager.add_user_message "hi" ConversationManager.init =
      (some { role := .user, content := [.text "hi"] },
       { ConversationManager.init with
         messages := ConversationManager.init.messages ++
           [{ role := .user, content := [.text "hi"] }] }) ∧
    ConversationManager.add_user_message "hi" stateOnePending = (none, stateOnePending) :=
  ⟨(c5_add_user_message ConversationManager.init "hi").2 (by decide),
   (c5_add_user_message stateOnePending "hi").1 (by decide)⟩

/-- Shape of `process_bedrock_response` on a response with a nonempty content
list: the extracted result, the appended assistant turn, and the transition
chosen by whether tool uses were found. -/
theorem pbr_shape_some {response : BedrockResponse} {blocks : List Block}
    (now : Nat) (s : ConversationManager) (hout : response.output = some blocks)
    (hne : blocks ≠ []) :
    ConversationManager.process_bedrock_response response now s =
      ({ text := extractText blocks, tool_uses := extractToolUses blocks,
         stop_reason := response.stopReason.getD "unknown" },
       ConversationManager.transition_to
         (if (extractToolUses blocks).isEmpty then .IDLE else .PROCESSING_TOOLS) now
         { ConversationManager.registerToolUses (extractToolUses blocks) s with
           messages := (ConversationManager.registerToolUses (extractToolUses blocks) s).messages
             ++ [{ role := .assistant, content := blocks }] }) := by
  have hbe : blocks.isEmpty = false := by
    cases blocks
    · exact absurd rfl hne
    · rfl
  unfold ConversationManager.process_bedrock_response
  rw [hout]
  by_cases hte : (extractToolUses blocks).isEmpty
  · simp only [hbe, hte, Bool.false_eq_true, if_false, if_true]
  · simp only [hbe, Bool.not_eq_true] at hte ⊢
    simp only [hte, Bool.false_eq_true, if_false]

/-- C6 counterexample: a gateway response whose output message has an empty
content list is ingested in `WAITING_FOR_RESPONSE`, yet no assistant turn is
appended (the transcript is unchanged) while the state still transitions to
`IDLE`. -/
theorem c6_counterexample :
    (runOps ConversationManager.init [(.submitUser "hi", 0)]).state =
      .WAITING_FOR_RESPONSE ∧
    (ConversationManager.process_bedrock_response respEmptyContent 5
        (runOps ConversationManager.init [(.submitUser "hi", 0)])).2.messages =
      (runOps ConversationManager.init [(.submitUser "hi", 0)]).messages ∧
    (ConversationManager.process_bedrock_response respEmptyContent 5
        (runOps ConversationManager.init [(.submitUser "hi", 0)])).2.state = .IDLE := by
  decide

/-- C6 (amended): for every gateway response whose output message is present
with a nonempty content list, `process_bedrock_response` appends exactly one
new assistant turn whose content blocks are the response blocks verbatim and
in order; it registers every tool-request block as pending with a zeroed
retry counter and a `tool_calls` entry; it transitions to `IDLE` when the
response contains no tool requests and to `PROCESSING_TOOLS` otherwise; and
it returns the concatenated extracted text together with the tool requests in
order.  (A response with an absent output message changes nothing; one with
an empty content list appends no turn, as the counterexample shows.) -/
theorem c6_process_response (response : BedrockResponse) (blocks : List Block)
    (now : Nat) (s : ConversationManager)
    (hout : response.output = some blocks) (hne : blocks ≠ []) :
    (ConversationManager.process_bedrock_response response now s).2.messages =
      s.messages ++ [{ role := .assistant, content := blocks }] ∧
    (∀ tu ∈ extractToolUses blocks,
      tu.toolUseId ∈ (ConversationManager.process_bedrock_response response now s).2.pending_tool_uses ∧
      lookupA tu.toolUseId
        (ConversationManager.process_bedrock_response response now s).2.error_counts = some 0 ∧
      (lookupA tu.toolUseId
        (ConversationManager.process_bedrock_response response now s).2.tool_calls).isSome) ∧
    (ConversationManager.process_bedrock_response response now s).2.state =
      (if extractToolUses blocks = [] then .IDLE else .PROCESSING_TOOLS) ∧
    (ConversationManager.process_bedrock_response response now s).1 =
      { text := extractText blocks, tool_uses := extractToolUses blocks,
        stop_reason := response.stopReason.getD "unknown" } := by
  rw [pbr_shape_some now s hout hne]
  refine ⟨?_, ?_, ?_, rfl⟩
  · rw [transition_to_messages]
    simp [registerToolUses_messages]
  · intro tu htu
    have hid : tu.toolUseId ∈ (extractToolUses blocks).map (fun tu => tu.toolUseId) :=
      List.mem_map.mpr ⟨tu, htu, rfl⟩
    have hte : (extractToolUses blocks).isEmpty = false := by
      cases h : extractToolUses blocks
      · rw [h] at htu; simp at htu
      · rfl
    rw [hte]
    simp only [Bool.false_eq_true, if_false]
    refine ⟨?_, ?_, ?_⟩
    · rw [transition_to_pending]
      simp only [if_neg (by decide : ¬ (ConversationState.PROCESSING_TOOLS = .IDLE))]
      show tu.toolUseId ∈ (ConversationManager.registerToolUses (extractToolUses blocks) s).pending_tool_uses
      exact (registerToolUses_pending_mem _ _ _).mpr (Or.inr hid)
    · rw [transition_to_error_counts]
      show lookupA tu.toolUseId
        (ConversationManager.registerToolUses (extractToolUses blocks) s).error_counts = some 0
      rw [registerToolUses_error_counts_lookup, if_pos hid]
    · rw [transition_to_tool_calls]
      show (lookupA tu.toolUseId
        (ConversationManager.registerToolUses (extractToolUses blocks) s).tool_calls).isSome
      exact registerToolUses_tool_calls_isSome _ _ _ hid
  · show (ConversationManager.transition_to _ now _).state = _
    rw [transition_to_state]
    by_cases hc : extractToolUses blocks = []
    · simp [hc]
    · have : (extractToolUses blocks).isEmpty = false := by
        cases h : extractToolUses blocks
        · exact absurd h hc
        · rfl
      simp [this, hc]

/-- Witness for C6: the one-tool response ingested after a user turn. -/
theorem c6_process_response_witness :
    (ConversationManager.process_bedrock_response respOneTool 1
        (runOps ConversationManager.init [(.submitUser "hi", 0)])).2.messages =
      (runOps ConversationManager.init [(.submitUser "hi", 0)]).messages ++
        [{ role := .assistant, content := [.text "calling", .toolUse sampleToolUse1] }] ∧
    (∀ tu ∈ extractToolUses [Block.text "calling", Block.toolUse sampleToolUse1],
      tu.toolUseId ∈ (ConversationManager.process_bedrock_response respOneTool 1
        (runOps ConversationManager.init [(.submitUser "hi", 0)])).2.pending_tool_uses ∧
      lookupA tu.toolUseId (ConversationManager.process_bedrock_response respOneTool 1
        (runOps ConversationManager.init [(.submitUser "hi", 0)])).2.error_counts = some 0 ∧
      (lookupA tu.toolUseId (ConversationManager.process_bedrock_response respOneTool 1
        (runOps ConversationManager.init [(.submitUser "hi", 0)])).2.tool_calls).isSome) ∧
    (ConversationManager.process_bedrock_response respOneTool 1
        (runOps ConversationManager.init [(.submitUser "hi", 0)])).2.state =
      (if extractToolUses [Block.text "calling", Block.toolUse sampleToolUse1] = []
       then .IDLE else .PROCESSING_TOOLS) ∧
    (ConversationManager.process_bedrock_response respOneTool 1
        (runOps ConversationManager.init [(.submitUser "hi", 0)])).1 =
      { text := extractText [Block.text "calling", Block.toolUse sampleToolUse1]
        tool_uses := extractToolUses [Block.text "calling", Block.toolUse sampleToolUse1]
        stop_reason := respOneTool.stopReason.getD "unknown" } :=
  c6_process_response respOneTool [.text "calling", .toolUse sampleToolUse1] 1
    (runOps ConversationManager.init [(.submitUser "hi", 0)]) rfl (by decide)

/-- C9: the tool transport applies a default timeout bound of 10 seconds, and
`CallTool` never propagates remote-side tool errors or timeouts: the manager
always returns either the tool content or an `{error: ...}` mapping, and the
client converts both caught failure classes into textual error payloads. -/
theorem c9_call_tool_contract :
    mcpDefaultTimeoutSeconds = 10 ∧
    (∀ url, (mcpClientDefault url).timeout = 10) ∧
    (∀ tool_mapping clients connectOk remote tool_name,
      (∃ content, manager_call_tool tool_mapping clients connectOk remote tool_name =
        .content content) ∨
      (∃ msg, manager_call_tool tool_mapping clients connectOk remote tool_name =
        .errorMap msg)) ∧
    (∀ c tool_name, McpClient.call_tool c tool_name .timeout =
      "Operation timed out after " ++ toString c.timeout ++ " seconds") ∧
    (∀ c tool_name m, McpClient.call_tool c tool_name (.raised m) =
      "Error calling tool " ++ tool_name ++ ": " ++ m) := by
  refine ⟨rfl, fun _ => rfl, ?_, fun _ _ => rfl, fun _ _ _ => rfl⟩
  intro tool_mapping clients connectOk remote tool_name
  unfold manager_call_tool
  rcases h1 : lookupA tool_name tool_mapping with _ | ⟨server_name, method_name⟩
  · exact Or.inr ⟨"Unknown tool: " ++ tool_name, by simp [h1]⟩
  · rcases h2 : lookupA server_name clients with _ | client
    · exact Or.inr ⟨"No client for server: " ++ server_name, by simp [h1, h2]⟩
    · by_cases hc : connectOk server_name
      · rcases remote with e | outcome
        · exact Or.inr ⟨e, by simp [h1, h2, hc]⟩
        · exact Or.inl ⟨client.call_tool method_name outcome, by simp [h1, h2, hc]⟩
      · exact Or.inr ⟨"Failed to connect to server: " ++ server_name, by simp [h1, h2, hc]⟩

/-!
Branch lemmas for `add_tool_result` and field lemmas for
`finalize_tool_result`.
-/
theorem finalize_fst (tool_use_id : String) (result : ToolCallResult) (now : Nat)
    (s : ConversationManager) :
    (ConversationManager.finalize_tool_result tool_use_id result now s).1 =
      some (toolResultMessage tool_use_id result) := by
  unfold ConversationManager.finalize_tool_result
  by_cases h : setRemove tool_use_id s.pending_tool_uses = [] ∧
      s.state = .PROCESSING_TOOLS <;>
    simp [h, List.isEmpty_iff]

theorem finalize_messages (tool_use_id : String) (result : ToolCallResult) (now : Nat)
    (s : ConversationManager) :
    (ConversationManager.finalize_tool_result tool_use_id result now s).2.messages =
      s.messages ++ [toolResultMessage tool_use_id result] := by
  unfold ConversationManager.finalize_tool_result
  by_cases h : setRemove tool_use_id s.pending_tool_uses = [] ∧
      s.state = .PROCESSING_TOOLS <;>
    simp [h, List.isEmpty_iff, transition_to_messages]

theorem finalize_used (tool_use_id : String) (result : ToolCallResult) (now : Nat)
    (s : ConversationManager) :
    (ConversationManager.finalize_tool_result tool_use_id result now s).2.used_tool_results =
      setAdd tool_use_id s.used_tool_results := by
  unfold ConversationManager.finalize_tool_result
  by_cases h : setRemove tool_use_id s.pending_tool_uses = [] ∧
      s.state = .PROCESSING_TOOLS <;>
    simp [h, List.isEmpty_iff, transition_to_used]

theorem finalize_pending (tool_use_id : String) (result : ToolCallResult) (now : Nat)
    (s : ConversationManager) :
    (ConversationManager.finalize_tool_result tool_use_id result now s).2.pending_tool_uses =
      setRemove tool_use_id s.pending_tool_uses := by
  unfold ConversationManager.finalize_tool_result
  by_cases h : setRemove tool_use_id s.pending_tool_uses = [] ∧
      s.state = .PROCESSING_TOOLS <;>
    simp [h, List.isEmpty_iff, transition_to_pending]

theorem finalize_tool_calls (tool_use_id : String) (result : ToolCallResult) (now : Nat)
    (s : ConversationManager) :
    (ConversationManager.finalize_tool_result tool_use_id result now s).2.tool_calls =
      s.tool_calls := by
  unfold ConversationManager.finalize_tool_result
  by_cases h : setRemove tool_use_id s.pending_tool_uses = [] ∧
      s.state = .PROCESSING_TOOLS <;>
    simp [h, List.isEmpty_iff, transition_to_tool_calls]

theorem finalize_error_counts (tool_use_id : String) (result : ToolCallResult) (now : Nat)
    (s : ConversationManager) :
    (ConversationManager.finalize_tool_result tool_use_id result now s).2.error_counts =
      s.error_counts := by
  unfold ConversationManager.finalize_tool_result
  by_cases h : setRemove tool_use_id s.pending_tool_uses = [] ∧
      s.state = .PROCESSING_TOOLS <;>
    simp [h, List.isEmpty_iff, transition_to_error_counts]

theorem finalize_max_retries (tool_use_id : String) (result : ToolCallResult) (now : Nat)
    (s : ConversationManager) :
    (ConversationManager.finalize_tool_result tool_use_id result now s).2.max_retries =
      s.max_retries := by
  unfold ConversationManager.finalize_tool_result
  by_cases h : setRemove tool_use_id s.pending_tool_uses = [] ∧
      s.state = .PROCESSING_TOOLS <;>
    simp [h, List.isEmpty_iff, transition_to_max_retries]

theorem finalize_state (tool_use_id : String) (result : ToolCallResult) (now : Nat)
    (s : ConversationManager) :
    (ConversationManager.finalize_tool_result tool_use_id result now s).2.state =
      if setRemove tool_use_id s.pending_tool_uses = [] ∧
          s.state = .PROCESSING_TOOLS then .CONTINUING else s.state := by
  unfold ConversationManager.finalize_tool_result
  by_cases h : setRemove tool_use_id s.pending_tool_uses = [] ∧
      s.state = .PROCESSING_TOOLS <;>
    simp [h, List.isEmpty_iff, transition_to_state]

theorem atr_unknown {tool_use_id : String} {s : ConversationManager}
    (result : ToolCallResult) (now : Nat)
    (hp : tool_use_id ∉ s.pending_tool_uses)
    (hs : ConversationManager.scanHistory tool_use_id s.messages = none) :
    ConversationManager.add_tool_result tool_use_id result now s = (none, s) := by
  unfold ConversationManager.add_tool_result
  simp [hp, hs]

theorem atr_history_hit {tool_use_id : String} {s : ConversationManager} {tu : ToolUse}
    (result : ToolCallResult) (now : Nat)
    (hp : tool_use_id ∉ s.pending_tool_uses)
    (hs : ConversationManager.scanHistory tool_use_id s.messages = some tu) :
    ConversationManager.add_tool_result tool_use_id result now s =
      ConversationManager.add_tool_result tool_use_id result now
        { s with pending_tool_uses := setAdd tool_use_id s.pending_tool_uses
                 tool_calls := insertA tool_use_id tu s.tool_calls } := by
  unfold ConversationManager.add_tool_result
  simp only [hp, hs, if_neg, if_pos]
  have hmem : tool_use_id ∈ setAdd tool_use_id s.pending_tool_uses :=
    mem_setAdd.mpr (Or.inl rfl)
  simp [hp, hmem]

theorem atr_duplicate {tool_use_id : String} {s : ConversationManager}
    (result : ToolCallResult) (now : Nat)
    (hp : tool_use_id ∈ s.pending_tool_uses)
    (hu : tool_use_id ∈ s.used_tool_results) :
    ConversationManager.add_tool_result tool_use_id result now s = (none, s) := by
  unfold ConversationManager.add_tool_result
  simp [hp, hu]

theorem atr_retry {tool_use_id : String} {s : ConversationManager} {e : String}
    (result : ToolCallResult) (now : Nat)
    (hp : tool_use_id ∈ s.pending_tool_uses)
    (hu : tool_use_id ∉ s.used_tool_results)
    (herr : result.error = some e)
    (hle : (lookupA tool_use_id s.error_counts).getD 0 + 1 ≤ s.max_retries) :
    ConversationManager.add_tool_result tool_use_id result now s =
      (none, { s with
               error_counts := insertA tool_use_id
                 ((lookupA tool_use_id s.error_counts).getD 0 + 1) s.error_counts }) := by
  unfold ConversationManager.add_tool_result
  simp only [hp, if_pos, hu, if_neg, herr]
  simp [hu, Nat.not_lt.mpr hle]

theorem atr_error_terminal {tool_use_id : String} {s : ConversationManager} {e : String}
    (result : ToolCallResult) (now : Nat)
    (hp : tool_use_id ∈ s.pending_tool_uses)
    (hu : tool_use_id ∉ s.used_tool_results)
    (herr : result.error = some e)
    (hgt : (lookupA tool_use_id s.error_counts).getD 0 + 1 > s.max_retries) :
    ConversationManager.add_tool_result tool_use_id result now s =
      ConversationManager.finalize_tool_result tool_use_id result now
        { s with
          error_counts := insertA tool_use_id
            ((lookupA tool_use_id s.error_counts).getD 0 + 1) s.error_counts } := by
  unfold ConversationManager.add_tool_result
  simp only [hp, if_pos, hu, if_neg, herr]
  simp [hu, hgt]

theorem atr_success {tool_use_id : String} {s : ConversationManager}
    (result : ToolCallResult) (now : Nat)
    (hp : tool_use_id ∈ s.pending_tool_uses)
    (hu : tool_use_id ∉ s.used_tool_results)
    (herr : result.error = none) :
    ConversationManager.add_tool_result tool_use_id result now s =
      ConversationManager.finalize_tool_result tool_use_id result now s := by
  unfold ConversationManager.add_tool_result
  simp [hp, hu, herr]

theorem findToolUseInMsg_user {tool_use_id : String} {m : Message}
    (h : m.role = .user) :
    ConversationManager.findToolUseInMsg tool_use_id m = none := by
  unfold ConversationManager.findToolUseInMsg
  rw [if_neg (by simp [h])]

theorem scanHistory_append_none {tool_use_id : String} {msgs : List Message}
    {m : Message} (hm : ConversationManager.findToolUseInMsg tool_use_id m = none) :
    ConversationManager.scanHistory tool_use_id (msgs ++ [m]) =
      ConversationManager.scanHistory tool_use_id msgs := by
  induction msgs with
  | nil =>
    show ConversationManager.scanHistory tool_use_id [m] = none
    rw [ConversationManager.scanHistory]
    rw [show ConversationManager.scanHistory tool_use_id [] = none from rfl]
    simpa using hm
  | cons a rest ih =>
    rw [List.cons_append, ConversationManager.scanHistory, ih,
      ConversationManager.scanHistory]

/-- C2 counterexample: after a tool request was resolved once, delivering the
same successful result again returns `None` and leaves the transcript
unchanged, but it does mutate the session state: the resolved id is re-added
to the pending set (the history-scan repair of lines 216-226 runs before the
duplicate check of lines 232-235), so the pending set is not identical to the
single-call state. -/
theorem c2_counterexample :
    (ConversationManager.add_tool_result "t1" sampleOkResult 3 stateResolved).1 = none ∧
    (ConversationManager.add_tool_result "t1" sampleOkResult 3 stateResolved).2.messages =
      stateResolved.messages ∧
    stateResolved.pending_tool_uses = [] ∧
    (ConversationManager.add_tool_result "t1" sampleOkResult 3
      stateResolved).2.pending_tool_uses = ["t1"] := by
  decide

/-- C2 (amended): delivering the same successful result twice leaves the
transcript and the resolved set identical to a single delivery, and the
second call returns `None`; but it is not a pure no-op on the session state:
because the history scan runs before the duplicate check, the second call
re-admits the id to the pending set (and refreshes its `tool_calls` entry)
even though the id stays in the resolved set. -/
theorem c2_duplicate_resolution (s : ConversationManager) (tool_use_id : String)
    (result : ToolCallResult) (now now' : Nat) (tu : ToolUse)
    (hp : tool_use_id ∈ s.pending_tool_uses)
    (hu : tool_use_id ∉ s.used_tool_results)
    (herr : result.error = none)
    (hs : ConversationManager.scanHistory tool_use_id s.messages = some tu) :
    (ConversationManager.add_tool_result tool_use_id result now'
        (ConversationManager.add_tool_result tool_use_id result now s).2).1 = none ∧
    (ConversationManager.add_tool_result tool_use_id result now'
        (ConversationManager.add_tool_result tool_use_id result now s).2).2.messages =
      (ConversationManager.add_tool_result tool_use_id result now s).2.messages ∧
    (ConversationManager.add_tool_result tool_use_id result now'
        (ConversationManager.add_tool_result tool_use_id result now s).2).2.used_tool_results =
      (ConversationManager.add_tool_result tool_use_id result now s).2.used_tool_results ∧
    tool_use_id ∉
      (ConversationManager.add_tool_result tool_use_id result now s).2.pending_tool_uses ∧
    (ConversationManager.add_tool_result tool_use_id result now'
        (ConversationManager.add_tool_result tool_use_id result now s).2).2.pending_tool_uses =
      setAdd tool_use_id
        (ConversationManager.add_tool_result tool_use_id result now s).2.pending_tool_uses ∧
    tool_use_id ∈
      (ConversationManager.add_tool_result tool_use_id result now'
        (ConversationManager.add_tool_result tool_use_id result now s).2).2.pending_tool_uses := by
  have h1 : ConversationManager.add_tool_result tool_use_id result now s =
      ConversationManager.finalize_tool_result tool_use_id result now s :=
    atr_success result now hp hu herr
  set s1 := (ConversationManager.add_tool_result tool_use_id result now s).2 with hs1
  have hs1p : s1.pending_tool_uses = setRemove tool_use_id s.pending_tool_uses := by
    rw [hs1, h1, finalize_pending]
  have hs1u : s1.used_tool_results = setAdd tool_use_id s.used_tool_results := by
    rw [hs1, h1, finalize_used]
  have hs1m : s1.messages = s.messages ++ [toolResultMessage tool_use_id result] := by
    rw [hs1, h1, finalize_messages]
  have hnp : tool_use_id ∉ s1.pending_tool_uses := by
    rw [hs1p]
    intro hmem
    exact (mem_setRemove.mp hmem).2 rfl
  have hscan : ConversationManager.scanHistory tool_use_id s1.messages = some tu := by
    rw [hs1m, scanHistory_append_none (findToolUseInMsg_user rfl), hs]
  have h2 := atr_history_hit (s := s1) result now' hnp hscan
  set s1' : ConversationManager :=
    { s1 with pending_tool_uses := setAdd tool_use_id s1.pending_tool_uses
              tool_calls := insertA tool_use_id tu s1.tool_calls } with hs1'
  have hp' : tool_use_id ∈ s1'.pending_tool_uses := mem_setAdd.mpr (Or.inl rfl)
  have hu' : tool_use_id ∈ s1'.used_tool_results := by
    show tool_use_id ∈ s1.used_tool_results
    rw [hs1u]
    exact mem_setAdd.mpr (Or.inl rfl)
  have h3 : ConversationManager.add_tool_result tool_use_id result now' s1' =
      (none, s1') := atr_duplicate result now' hp' hu'
  rw [h2, h3]
  exact ⟨rfl, rfl, rfl, hnp, rfl, hp'⟩

/-- Witness for C2 at the one-tool scenario. -/
theorem c2_duplicate_resolution_witness :
    (ConversationManager.add_tool_result "t1" sampleOkResult 3
        (ConversationManager.add_tool_result "t1" sampleOkResult 2 stateOnePending).2).1 = none ∧
    (ConversationManager.add_tool_result "t1" sampleOkResult 3
        (ConversationManager.add_tool_result "t1" sampleOkResult 2 stateOnePending).2).2.messages =
      (ConversationManager.add_tool_result "t1" sampleOkResult 2 stateOnePending).2.messages ∧
    (ConversationManager.add_tool_result "t1" sampleOkResult 3
        (ConversationManager.add_tool_result "t1" sampleOkResult 2 stateOnePending).2).2.used_tool_results =
      (ConversationManager.add_tool_result "t1" sampleOkResult 2 stateOnePending).2.used_tool_results ∧
    "t1" ∉
      (ConversationManager.add_tool_result "t1" sampleOkResult 2 stateOnePending).2.pending_tool_uses ∧
    (ConversationManager.add_tool_result "t1" sampleOkResult 3
        (ConversationManager.add_tool_result "t1" sampleOkResult 2 stateOnePending).2).2.pending_tool_uses =
      setAdd "t1"
        (ConversationManager.add_tool_result "t1" sampleOkResult 2 stateOnePending).2.pending_tool_uses ∧
    "t1" ∈
      (ConversationManager.add_tool_result "t1" sampleOkResult 3
        (ConversationManager.add_tool_result "t1" sampleOkResult 2 stateOnePending).2).2.pending_tool_uses :=
  c2_duplicate_resolution stateOnePending "t1" sampleOkResult 2 3 sampleToolUse1
    (by decide) (by decide) (by decide) (by decide)

/-- C8: `add_tool_result` takes its unknown-request failure branch (returning
`None` with nothing recorded and the state unchanged) exactly when the id is
neither in the pending set nor present as a `toolUse` block in any
assistant-role turn of the transcript; when the id is absent from the pending
set but the transcript scan finds it, the id is re-admitted to the pending
set and the call proceeds exactly as it would from the re-admitted state. -/
theorem c8_unknown_request (s : ConversationManager) (tool_use_id : String)
    (result : ToolCallResult) (now : Nat) :
    ((tool_use_id ∉ s.pending_tool_uses ∧
        ConversationManager.scanHistory tool_use_id s.messages = none) ↔
      (tool_use_id ∉ s.pending_tool_uses ∧ ¬ HasRequest tool_use_id s.messages)) ∧
    (tool_use_id ∉ s.pending_tool_uses → ¬ HasRequest tool_use_id s.messages →
      ConversationManager.add_tool_result tool_use_id result now s = (none, s)) ∧
    (∀ tu : ToolUse, tool_use_id ∉ s.pending_tool_uses →
      ConversationManager.scanHistory tool_use_id s.messages = some tu →
      ConversationManager.add_tool_result tool_use_id result now s =
        ConversationManager.add_tool_result tool_use_id result now
          { s with pending_tool_uses := setAdd tool_use_id s.pending_tool_uses
                   tool_calls := insertA tool_use_id tu s.tool_calls } ∧
      tool_use_id ∈ setAdd tool_use_id s.pending_tool_uses) := by
  refine ⟨?_, ?_, ?_⟩
  · constructor
    · rintro ⟨h1, h2⟩
      exact ⟨h1, scanHistory_eq_none_iff.mp h2⟩
    · rintro ⟨h1, h2⟩
      exact ⟨h1, scanHistory_eq_none_iff.mpr h2⟩
  · intro h1 h2
    exact atr_unknown result now h1 (scanHistory_eq_none_iff.mpr h2)
  · intro tu h1 h2
    exact ⟨atr_history_hit result now h1 h2, mem_setAdd.mpr (Or.inl rfl)⟩

/-- Witness for C8: an id that never existed is rejected with no state
change, and a resolved id found in the transcript is re-admitted. -/
theorem c8_unknown_request_witness :
    ConversationManager.add_tool_result "zz" sampleOkResult 9 stateOnePending =
      (none, stateOnePending) ∧
    (ConversationManager.add_tool_result "t1" sampleOkResult 9 stateResolved =
      ConversationManager.add_tool_result "t1" sampleOkResult 9
        { stateResolved with
          pending_tool_uses := setAdd "t1" stateResolved.pending_tool_uses
          tool_calls := insertA "t1" sampleToolUse1 stateResolved.tool_calls } ∧
      "t1" ∈ setAdd "t1" stateResolved.pending_tool_uses) :=
  ⟨(c8_unknown_request stateOnePending "zz" sampleOkResult 9).2.1 (by decide)
      (scanHistory_eq_none_iff.mp (by decide)),
   (c8_unknown_request stateResolved "t1" sampleOkResult 9).2.2 sampleToolUse1
      (by decide) (by decide)⟩

theorem deliverResults_err_spec (tool_use_id e : String) (result : ToolCallResult)
    (now : Nat) (herr : result.error = some e) :
    ∀ (k c : Nat) (s : ConversationManager),
      tool_use_id ∈ s.pending_tool_uses →
      tool_use_id ∉ s.used_tool_results →
      lookupA tool_use_id s.error_counts = some c →
      c + k ≤ s.max_retries →
      deliverResults tool_use_id result now k s =
        { s with error_counts := insertA tool_use_id (c + k) s.error_counts } := by
  intro k
  induction k with
  | zero =>
    intro c s _ _ hc _
    show s = _
    rw [Nat.add_zero, insertA_self_of_lookupA hc]
  | succ k ih =>
    intro c s hp hu hc hle
    have hle1 : (lookupA tool_use_id s.error_counts).getD 0 + 1 ≤ s.max_retries := by
      rw [hc]
      simp only [Option.getD_some]
      omega
    show deliverResults tool_use_id result now k
        (ConversationManager.add_tool_result tool_use_id result now s).2 = _
    rw [atr_retry result now hp hu herr hle1]
    rw [hc]
    simp only [Option.getD_some]
    have := ih (c + 1)
      { s with error_counts := insertA tool_use_id (c + 1) s.error_counts }
      hp hu (lookupA_insertA_self _ _ _) (by simpa using by omega)
    rw [this]
    simp only [insertA_insertA_self]
    have harith : c + 1 + k = c + (k + 1) := by omega
    rw [harith]

/-- C3: with retry ceiling `N = max_retries`, a pending request whose
deliveries always signal an error is retried exactly `N` times: each of the
first `N` error deliveries returns the retry signal `None`, increments the
error counter, appends nothing and leaves the id pending and unresolved; the
`(N+1)`-th delivery records a terminal error `toolResult` user turn, removes
the id from the pending set and adds it to the resolved set. -/
theorem c3_retry_ceiling (s : ConversationManager) (tool_use_id e : String)
    (result : ToolCallResult) (N now : Nat)
    (herr : result.error = some e)
    (hp : tool_use_id ∈ s.pending_tool_uses)
    (hu : tool_use_id ∉ s.used_tool_results)
    (h0 : lookupA tool_use_id s.error_counts = some 0)
    (hN : s.max_retries = N) :
    (∀ k, k ≤ N →
      (deliverResults tool_use_id result now k s).messages = s.messages ∧
      tool_use_id ∈ (deliverResults tool_use_id result now k s).pending_tool_uses ∧
      tool_use_id ∉ (deliverResults tool_use_id result now k s).used_tool_results ∧
      lookupA tool_use_id (deliverResults tool_use_id result now k s).error_counts =
        some k) ∧
    (∀ k, k < N →
      (ConversationManager.add_tool_result tool_use_id result now
        (deliverResults tool_use_id result now k s)).1 = none) ∧
    ((ConversationManager.add_tool_result tool_use_id result now
        (deliverResults tool_use_id result now N s)).1 =
      some (toolResultMessage tool_use_id result) ∧
     (ConversationManager.add_tool_result tool_use_id result now
        (deliverResults tool_use_id result now N s)).2.messages =
      s.messages ++ [toolResultMessage tool_use_id result] ∧
     tool_use_id ∉ (ConversationManager.add_tool_result tool_use_id result now
        (deliverResults tool_use_id result now N s)).2.pending_tool_uses ∧
     tool_use_id ∈ (ConversationManager.add_tool_result tool_use_id result now
        (deliverResults tool_use_id result now N s)).2.used_tool_results) := by
  have hshape : ∀ k, k ≤ N → deliverResults tool_use_id result now k s =
      { s with error_counts := insertA tool_use_id k s.error_counts } := by
    intro k hk
    have := deliverResults_err_spec tool_use_id e result now herr k 0 s hp hu h0 (by omega)
    simpa using this
  refine ⟨?_, ?_, ?_⟩
  · intro k hk
    rw [hshape k hk]
    exact ⟨rfl, hp, hu, lookupA_insertA_self _ _ _⟩
  · intro k hk
    rw [hshape k (Nat.le_of_lt hk)]
    have hle : (lookupA tool_use_id
        (insertA tool_use_id k s.error_counts)).getD 0 + 1 ≤ s.max_retries := by
      rw [lookupA_insertA_self]
      simp only [Option.getD_some]
      omega
    have hstep := @atr_retry tool_use_id
      { s with error_counts := insertA tool_use_id k s.error_counts } e result now
      hp hu herr hle
    rw [hstep]
  · rw [hshape N (Nat.le_refl N)]
    have hgt : (lookupA tool_use_id
        (insertA tool_use_id N s.error_counts)).getD 0 + 1 > s.max_retries := by
      rw [lookupA_insertA_self]
      simp only [Option.getD_some]
      omega
    have hstep := @atr_error_terminal tool_use_id
      { s with error_counts := insertA tool_use_id N s.error_counts } e result now
      hp hu herr hgt
    rw [hstep]
    refine ⟨finalize_fst _ _ _ _, ?_, ?_, ?_⟩
    · rw [finalize_messages]
    · rw [finalize_pending]
      intro hmem
      exact (mem_setRemove.mp hmem).2 rfl
    · rw [finalize_used]
      exact mem_setAdd.mpr (Or.inl rfl)

/-- Witness for C3 at the one-tool scenario with the default ceiling of 3. -/
theorem c3_retry_ceiling_witness :
    (∀ k, k ≤ 3 →
      (deliverResults "t1" sampleErrResult 5 k stateOnePending).messages =
        stateOnePending.messages ∧
      "t1" ∈ (deliverResults "t1" sampleErrResult 5 k stateOnePending).pending_tool_uses ∧
      "t1" ∉ (deliverResults "t1" sampleErrResult 5 k stateOnePending).used_tool_results ∧
      lookupA "t1" (deliverResults "t1" sampleErrResult 5 k stateOnePending).error_counts =
        some k) ∧
    (∀ k, k < 3 →
      (ConversationManager.add_tool_result "t1" sampleErrResult 5
        (deliverResults "t1" sampleErrResult 5 k stateOnePending)).1 = none) ∧
    ((ConversationManager.add_tool_result "t1" sampleErrResult 5
        (deliverResults "t1" sampleErrResult 5 3 stateOnePending)).1 =
      some (toolResultMessage "t1" sampleErrResult) ∧
     (ConversationManager.add_tool_result "t1" sampleErrResult 5
        (deliverResults "t1" sampleErrResult 5 3 stateOnePending)).2.messages =
      stateOnePending.messages ++ [toolResultMessage "t1" sampleErrResult] ∧
     "t1" ∉ (ConversationManager.add_tool_result "t1" sampleErrResult 5
        (deliverResults "t1" sampleErrResult 5 3 stateOnePending)).2.pending_tool_uses ∧
     "t1" ∈ (ConversationManager.add_tool_result "t1" sampleErrResult 5
        (deliverResults "t1" sampleErrResult 5 3 stateOnePending)).2.used_tool_results) :=
  c3_retry_ceiling stateOnePending "t1" "boom" sampleErrResult 3 5 rfl
    (by decide) (by decide) (by decide) (by decide)

theorem resolve_all_pending_nil (now : Nat) (s : ConversationManager) :
    ConversationManager.resolve_all_pending [] now s = s := rfl

theorem resolve_all_pending_cons (tool_use_id : String) (rest : List String)
    (now : Nat) (s : ConversationManager) :
    ConversationManager.resolve_all_pending (tool_use_id :: rest) now s =
      ConversationManager.resolve_all_pending rest now
        (ConversationManager.add_tool_result tool_use_id
          (ConversationManager.connectivityResult s.tool_calls tool_use_id) now s).2 := by
  unfold ConversationManager.resolve_all_pending
  rw [List.foldl_cons]

theorem resolve_all_pending_spec :
    ∀ (ids : List String) (now : Nat) (s : ConversationManager),
      ids.Nodup →
      (∀ tool_use_id ∈ ids, tool_use_id ∈ s.pending_tool_uses) →
      (ConversationManager.resolve_all_pending ids now s).messages =
        s.messages ++ (ids.filter (fun x => decide (x ∉ s.used_tool_results))).map
          (fun tool_use_id =>
            toolResultMessage tool_use_id
              (ConversationManager.connectivityResult s.tool_calls tool_use_id)) ∧
      (ConversationManager.resolve_all_pending ids now s).tool_calls = s.tool_calls ∧
      (ConversationManager.resolve_all_pending ids now s).error_counts = s.error_counts ∧
      (∀ x, x ∈ (ConversationManager.resolve_all_pending ids now s).pending_tool_uses ↔
        x ∈ s.pending_tool_uses ∧ (x ∉ ids ∨ x ∈ s.used_tool_results)) ∧
      (∀ x, x ∈ (ConversationManager.resolve_all_pending ids now s).used_tool_results ↔
        x ∈ s.used_tool_results ∨ x ∈ ids) := by
  intro ids
  induction ids with
  | nil =>
    intro now s _ _
    rw [resolve_all_pending_nil]
    refine ⟨by simp, rfl, rfl, fun x => by simp, fun x => by simp⟩
  | cons tool_use_id rest ih =>
    intro now s hnd hp
    have hpid : tool_use_id ∈ s.pending_tool_uses := hp _ (List.mem_cons_self _ _)
    have hid_rest : tool_use_id ∉ rest := (List.nodup_cons.mp hnd).1
    have hnd_rest : rest.Nodup := (List.nodup_cons.mp hnd).2
    rw [resolve_all_pending_cons]
    by_cases hu : tool_use_id ∈ s.used_tool_results
    · rw [atr_duplicate _ now hpid hu]
      obtain ⟨ihm, ihtc, ihec, ihp, ihu⟩ := ih now s hnd_rest
        (fun x hx => hp x (List.mem_cons_of_mem _ hx))
      have hfilter : (tool_use_id :: rest).filter
          (fun x => decide (x ∉ s.used_tool_results)) =
          rest.filter (fun x => decide (x ∉ s.used_tool_results)) := by
        rw [List.filter_cons]
        simp [hu]
      rw [hfilter]
      refine ⟨ihm, ihtc, ihec, ?_, ?_⟩
      · intro x
        rw [ihp x]
        by_cases hx : x = tool_use_id
        · subst hx
          simp [hu]
        · simp only [List.mem_cons]
          tauto
      · intro x
        rw [ihu x]
        by_cases hx : x = tool_use_id
        · subst hx
          simp [hu]
        · simp only [List.mem_cons]
          tauto
    · have hcerr : (ConversationManager.connectivityResult s.tool_calls tool_use_id).error =
          none := rfl
      rw [atr_success _ now hpid hu hcerr]
      set s1 := (ConversationManager.finalize_tool_result tool_use_id
        (ConversationManager.connectivityResult s.tool_calls tool_use_id) now s).2 with hs1
      have h1m : s1.messages = s.messages ++ [toolResultMessage tool_use_id
          (ConversationManager.connectivityResult s.tool_calls tool_use_id)] :=
        finalize_messages _ _ _ _
      have h1tc : s1.tool_calls = s.tool_calls := finalize_tool_calls _ _ _ _
      have h1ec : s1.error_counts = s.error_counts := finalize_error_counts _ _ _ _
      have h1p : s1.pending_tool_uses = setRemove tool_use_id s.pending_tool_uses :=
        finalize_pending _ _ _ _
      have h1u : s1.used_tool_results = setAdd tool_use_id s.used_tool_results :=
        finalize_used _ _ _ _
      have hp1 : ∀ x ∈ rest, x ∈ s1.pending_tool_uses := by
        intro x hx
        rw [h1p]
        exact mem_setRemove.mpr ⟨hp _ (List.mem_cons_of_mem _ hx),
          fun hxeq => hid_rest (hxeq ▸ hx)⟩
      obtain ⟨ihm, ihtc, ihec, ihp, ihu⟩ := ih now s1 hnd_rest hp1
      have hfilter1 : rest.filter (fun x => decide (x ∉ s1.used_tool_results)) =
          rest.filter (fun x => decide (x ∉ s.used_tool_results)) := by
        apply List.filter_congr
        intro x hx
        rw [h1u]
        simp only [decide_eq_decide, mem_setAdd]
        constructor
        · intro h hmem
          exact h (Or.inr hmem)
        · rintro h (rfl | hmem)
          · exact hid_rest hx
          · exact h hmem
      have hfilter0 : (tool_use_id :: rest).filter
          (fun x => decide (x ∉ s.used_tool_results)) =
          tool_use_id :: rest.filter (fun x => decide (x ∉ s.used_tool_results)) := by
        rw [List.filter_cons]
        simp [hu]
      refine ⟨?_, by rw [ihtc, h1tc], by rw [ihec, h1ec], ?_, ?_⟩
      · rw [ihm, h1m, h1tc, hfilter1, hfilter0]
        simp [List.append_assoc]
      · intro x
        rw [ihp x, h1p]
        simp only [mem_setRemove, List.mem_cons]
        rw [h1u]
        simp only [mem_setAdd]
        by_cases hx : x = tool_use_id
        · subst hx
          simp [hu]
        · simp only [hx, false_or]
          tauto
      · intro x
        rw [ihu x, h1u]
        simp only [mem_setAdd, List.mem_cons]
        tauto

/-- C4 counterexample: a precondition-respecting trace (two tool requests,
one resolved, then the same result delivered again) reaches
`PROCESSING_TOOLS` with `t1` both pending (re-admitted by the duplicate
delivery) and already resolved; past the threshold, `handle_timeout` appends
a synthetic result only for `t2`, transitions to `CONTINUING`, and leaves
`t1` pending with no synthetic result — so it does not resolve every
remaining pending id. -/
theorem c4_counterexample :
    LegalPre ConversationManager.init traceDupResolve ∧
    (runOps ConversationManager.init traceDupResolve).state = .PROCESSING_TOOLS ∧
    "t1" ∈ (runOps ConversationManager.init traceDupResolve).pending_tool_uses ∧
    ConversationManager.get_state_duration 100
      (runOps ConversationManager.init traceDupResolve) > 60 ∧
    (ConversationManager.handle_timeout 60 100
      (runOps ConversationManager.init traceDupResolve)).2.state = .CONTINUING ∧
    (ConversationManager.handle_timeout 60 100
      (runOps ConversationManager.init traceDupResolve)).2.pending_tool_uses = ["t1"] ∧
    (ConversationManager.handle_timeout 60 100
      (runOps ConversationManager.init traceDupResolve)).2.messages.length =
      (runOps ConversationManager.init traceDupResolve).messages.length + 1 := by
  decide

/-- C4 (amended): `handle_timeout` behaviour in every state.  When the
threshold has not elapsed nothing changes; past the threshold:
`PROCESSING_TOOLS` force-resolves every pending id that is not already in the
resolved set with the synthetic connectivity-error `toolResult` turn, in
pending order (taking the non-error terminal path of `add_tool_result`, hence
bypassing the retry ceiling), and ends in `CONTINUING`, while a pending id
that is simultaneously in the resolved set — reachable via duplicate-delivery
re-admission — is skipped and remains pending with no synthetic result;
`WAITING_FOR_RESPONSE` records the timeout message as the session error and
transitions to `ERROR`; `CONTINUING` transitions to `IDLE`; `IDLE` and
`ERROR` take no action.  (The duplicate-freeness hypothesis on the pending
list is the representation invariant of modelling a Python `set` as a list.) -/
theorem c4_handle_timeout (s : ConversationManager) (max_duration now : Nat) :
    (¬ ConversationManager.get_state_duration now s > max_duration →
      ConversationManager.handle_timeout max_duration now s = (false, s)) ∧
    (ConversationManager.get_state_duration now s > max_duration →
      ((s.state = .IDLE ∨ s.state = .ERROR) →
        ConversationManager.handle_timeout max_duration now s = (false, s)) ∧
      (s.state = .WAITING_FOR_RESPONSE →
        ConversationManager.handle_timeout max_duration now s =
          (true, ConversationManager.transition_to .ERROR now
            { s with last_error := some "Timed out waiting for Bedrock response" }) ∧
        (ConversationManager.handle_timeout max_duration now s).2.messages = s.messages ∧
        (ConversationManager.handle_timeout max_duration now s).2.state = .ERROR ∧
        (ConversationManager.handle_timeout max_duration now s).2.last_error =
          some "Timed out waiting for Bedrock response") ∧
      (s.state = .CONTINUING →
        ConversationManager.handle_timeout max_duration now s =
          (true, ConversationManager.transition_to .IDLE now s) ∧
        (ConversationManager.handle_timeout max_duration now s).2.messages = s.messages ∧
        (ConversationManager.handle_timeout max_duration now s).2.state = .IDLE) ∧
      (s.state = .PROCESSING_TOOLS → s.pending_tool_uses.Nodup →
        (ConversationManager.handle_timeout max_duration now s).1 = true ∧
        (ConversationManager.handle_timeout max_duration now s).2.state = .CONTINUING ∧
        (∀ x, x ∈ (ConversationManager.handle_timeout max_duration now s).2.pending_tool_uses ↔
          x ∈ s.pending_tool_uses ∧ x ∈ s.used_tool_results) ∧
        (ConversationManager.handle_timeout max_duration now s).2.messages =
          s.messages ++ (s.pending_tool_uses.filter
            (fun x => decide (x ∉ s.used_tool_results))).map (fun tool_use_id =>
              toolResultMessage tool_use_id
                (ConversationManager.connectivityResult s.tool_calls tool_use_id)) ∧
        (∀ x, x ∈ (ConversationManager.handle_timeout max_duration now s).2.used_tool_results ↔
          x ∈ s.used_tool_results ∨ x ∈ s.pending_tool_uses))) := by
  constructor
  · intro h
    unfold ConversationManager.handle_timeout
    rw [if_neg h]
  · intro h
    have hto : ConversationManager.handle_timeout max_duration now s =
        match s.state with
        | .PROCESSING_TOOLS => ConversationManager.force_continue now s
        | .WAITING_FOR_RESPONSE =>
          (true, ConversationManager.transition_to .ERROR now
            { s with last_error := some "Timed out waiting for Bedrock response" })
        | .CONTINUING => (true, ConversationManager.transition_to .IDLE now s)
        | _ => (false, s) := by
      unfold ConversationManager.handle_timeout
      rw [if_pos h]
    refine ⟨?_, ?_, ?_, ?_⟩
    · rintro (hst | hst) <;> rw [hto, hst]
    · intro hst
      rw [hto, hst]
      refine ⟨rfl, transition_to_messages _ _ _, transition_to_state _ _ _, ?_⟩
      have : ConversationState.ERROR ≠ .IDLE := by decide
      unfold ConversationManager.transition_to
      rw [if_neg this]
    · intro hst
      rw [hto, hst]
      exact ⟨rfl, transition_to_messages _ _ _, transition_to_state _ _ _⟩
    · intro hst hnd
      rw [hto, hst]
      have hfc : ConversationManager.force_continue now s =
          (true, ConversationManager.transition_to .CONTINUING now
            (ConversationManager.resolve_all_pending s.pending_tool_uses now s)) := by
        unfold ConversationManager.force_continue
        rw [if_neg (by rw [hst]; rintro (hc | hc) <;> exact absurd hc (by decide))]
      rw [hfc]
      obtain ⟨hm, _, _, hpiff, huiff⟩ :=
        resolve_all_pending_spec s.pending_tool_uses now s hnd (fun _ hx => hx)
      refine ⟨rfl, transition_to_state _ _ _, ?_, ?_, ?_⟩
      · intro x
        rw [transition_to_pending,
          if_neg (by decide : ¬ (ConversationState.CONTINUING = .IDLE))]
        rw [hpiff x]
        tauto
      · rw [transition_to_messages]
        exact hm
      · intro x
        rw [transition_to_used]
        exact huiff x

/-- Witness for C4: past the threshold, the two-pending-tools state resolves
both ids with synthetic connectivity errors and ends in `CONTINUING`; below
the threshold nothing changes. -/
theorem c4_handle_timeout_witness :
    ((ConversationManager.handle_timeout 60 100 stateTwoPending).1 = true ∧
     (ConversationManager.handle_timeout 60 100 stateTwoPending).2.state = .CONTINUING ∧
     (∀ x, x ∈ (ConversationManager.handle_timeout 60 100 stateTwoPending).2.pending_tool_uses ↔
       x ∈ stateTwoPending.pending_tool_uses ∧ x ∈ stateTwoPending.used_tool_results) ∧
     (ConversationManager.handle_timeout 60 100 stateTwoPending).2.messages =
       stateTwoPending.messages ++ (stateTwoPending.pending_tool_uses.filter
         (fun x => decide (x ∉ stateTwoPending.used_tool_results))).map (fun tool_use_id =>
           toolResultMessage tool_use_id
             (ConversationManager.connectivityResult stateTwoPending.tool_calls tool_use_id)) ∧
     (∀ x, x ∈ (ConversationManager.handle_timeout 60 100 stateTwoPending).2.used_tool_results ↔
       x ∈ stateTwoPending.used_tool_results ∨ x ∈ stateTwoPending.pending_tool_uses)) ∧
    ConversationManager.handle_timeout 60 30 stateTwoPending = (false, stateTwoPending) :=
  ⟨((c4_handle_timeout stateTwoPending 60 100).2 (by decide)).2.2.2
     (by decide) (by decide),
   (c4_handle_timeout stateTwoPending 60 30).1 (by decide)⟩

theorem mergeAdjacent_head_role :
    ∀ (m : Message) (rest : List Message),
      ∃ c l, mergeAdjacent (m :: rest) = { role := m.role, content := c } :: l := by
  have H : ∀ (msgs : List Message) (m : Message) (rest : List Message),
      msgs = m :: rest →
      ∃ c l, mergeAdjacent msgs = { role := m.role, content := c } :: l := by
    intro msgs
    induction msgs using mergeAdjacent.induct with
    | case1 =>
      intro m rest h
      exact absurd h (by simp)
    | case2 m0 =>
      intro m rest h
      injection h with h1 h2
      subst h1
      subst h2
      refine ⟨m0.content, [], ?_⟩
      rw [mergeAdjacent]
    | case3 m1 m2 rest h ih =>
      intro m rest0 heq
      obtain rfl : m1 = m := by injection heq
      obtain ⟨c, l, hcl⟩ := ih { role := m1.role, content := m1.content ++ m2.content }
        rest rfl
      refine ⟨c, l, ?_⟩
      rw [mergeAdjacent, if_pos h]
      exact hcl
    | case4 m1 m2 rest h ih =>
      intro m rest0 heq
      obtain rfl : m1 = m := by injection heq
      rw [mergeAdjacent, if_neg h]
      exact ⟨m1.content, mergeAdjacent (m2 :: rest), rfl⟩
  intro m rest
  exact H (m :: rest) m rest rfl

theorem mergeAdjacent_rolesAlternate (msgs : List Message) :
    rolesAlternate (mergeAdjacent msgs) := by
  induction msgs using mergeAdjacent.induct with
  | case1 =>
    rw [mergeAdjacent]
    trivial
  | case2 m =>
    rw [mergeAdjacent]
    trivial
  | case3 m1 m2 rest h ih =>
    rw [mergeAdjacent, if_pos h]
    exact ih
  | case4 m1 m2 rest h ih =>
    rw [mergeAdjacent, if_neg h]
    obtain ⟨c, l, hcl⟩ := mergeAdjacent_head_role m2 rest
    rw [hcl]
    rw [hcl] at ih
    exact ⟨by simpa using h, ih⟩

theorem mergeAdjacent_pair (r : Role) (c1 c2 : List Block) :
    mergeAdjacent [{ role := r, content := c1 }, { role := r, content := c2 }] =
      [{ role := r, content := c1 ++ c2 }] := by
  rw [mergeAdjacent, if_pos rfl, mergeAdjacent]

/-- C7 counterexample: a transcript reached by a precondition-respecting
operation sequence (one round with two tool requests, both resolved) is
handed to the gateway by `get_bedrock_messages` with two consecutive
user-role turns: the merge repair is not applied because the structural
validation of `get_bedrock_messages` never fails on well-formed messages. -/
theorem c7_counterexample :
    LegalPre ConversationManager.init traceTwoResolved ∧
    (ConversationManager.get_bedrock_messages stateTwoResolved).1.map
      (fun m => m.role) = [.user, .assistant, .user, .user] ∧
    ¬ rolesAlternate (ConversationManager.get_bedrock_messages stateTwoResolved).1 := by
  decide

/-- C7 (amended): the merge pass of `_repair_message_sequence` does guarantee
the property — its output never has two consecutive turns with the same role,
and two consecutive same-role turns are merged into one turn whose content
blocks are the concatenation of both turns' blocks in order — but
`get_bedrock_messages` invokes the repair only when a message fails the
structural validation (a non-dict entry or a missing role/content key), so
the transcript it hands to the gateway can still contain consecutive
same-role turns, as the counterexample shows. -/
theorem c7_repair_merges (s : ConversationManager) (r : Role) (c1 c2 : List Block) :
    rolesAlternate (ConversationManager.repair_message_sequence s).messages ∧
    (s.messages = [{ role := r, content := c1 }, { role := r, content := c2 }] →
      (ConversationManager.repair_message_sequence s).messages =
        [{ role := r, content := c1 ++ c2 }]) := by
  constructor
  · exact mergeAdjacent_rolesAlternate s.messages
  · intro h
    show mergeAdjacent s.messages = _
    rw [h]
    exact mergeAdjacent_pair r c1 c2

/-- Witness for C7: the manually constructed two-user-turn transcript of the
spec's repair test is merged into one turn. -/
theorem c7_repair_merges_witness :
    rolesAlternate (ConversationManager.repair_message_sequence
      { stateTwoResolved with
        messages := [{ role := .user, content := [.text "a"] },
                     { role := .user, content := [.text "b"] }] }).messages ∧
    (({ stateTwoResolved with
        messages := [{ role := .user, content := [.text "a"] },
                     { role := .user, content := [.text "b"] }] } :
          ConversationManager).messages =
        [{ role := Role.user, content := [.text "a"] },
         { role := Role.user, content := [.text "b"] }] →
      (ConversationManager.repair_message_sequence
        { stateTwoResolved with
          messages := [{ role := .user, content := [.text "a"] },
                       { role := .user, content := [.text "b"] }] }).messages =
        [{ role := Role.user, content := [.text "a", .text "b"] }]) := by
  have h := c7_repair_merges
    { stateTwoResolved with
      messages := [{ role := .user, content := [.text "a"] },
                   { role := .user, content := [.text "b"] }] }
    Role.user [.text "a"] [.text "b"]
  exact ⟨h.1, fun hm => h.2 hm⟩

theorem inv_transition {s : ConversationManager} (ns : ConversationState) (now : Nat)
    (hInv : SessionInv s) : SessionInv (ConversationManager.transition_to ns now s) := by
  obtain ⟨h1, h2, h3⟩ := hInv
  refine ⟨?_, ?_, ?_⟩
  · rw [transition_to_messages]; exact h1
  · rw [transition_to_messages]; exact h2
  · intro x hx
    rw [transition_to_messages]
    rw [transition_to_pending] at hx
    by_cases hns : ns = .IDLE
    · rw [if_pos hns] at hx
      simp at hx
    · rw [if_neg hns] at hx
      exact h3 x hx

theorem inv_add_user {s : ConversationManager} (content : String) (hInv : SessionInv s) :
    SessionInv (ConversationManager.add_user_message content s).2 := by
  obtain ⟨h1, h2, h3⟩ := hInv
  unfold ConversationManager.add_user_message
  by_cases hst : s.state ≠ .IDLE
  · rw [if_pos hst]
    exact ⟨h1, h2, h3⟩
  · rw [if_neg hst]
    refine ⟨?_, ?_, ?_⟩
    · exact alternation_snoc.mpr ⟨h1, by intro x rc hmem; simp at hmem⟩
    · unfold UniqueToolUseIds
      rw [transcriptToolUseIds_append, transcriptToolUseIds_singleton]
      simpa [toolUseIdsOfBlocks, extractToolUses] using h2
    · intro x hx
      exact HasRequest_append_left (h3 x hx)

theorem inv_finalize {s : ConversationManager} {tool_use_id : String}
    (result : ToolCallResult) (now : Nat) (hInv : SessionInv s)
    (hp : tool_use_id ∈ s.pending_tool_uses) :
    SessionInv (ConversationManager.finalize_tool_result tool_use_id result now s).2 := by
  obtain ⟨h1, h2, h3⟩ := hInv
  have hm := finalize_messages tool_use_id result now s
  have hpd := finalize_pending tool_use_id result now s
  refine ⟨?_, ?_, ?_⟩
  · rw [hm]
    refine alternation_snoc.mpr ⟨h1, ?_⟩
    intro x rc hmem
    simp only [toolResultMessage, List.mem_singleton] at hmem
    obtain ⟨rfl, rfl⟩ : tool_use_id = x ∧ [resultContentOf result] = rc := by
      constructor <;> injection hmem <;> simp_all
    exact ⟨rfl, h3 _ hp⟩
  · unfold UniqueToolUseIds
    rw [hm, transcriptToolUseIds_append, transcriptToolUseIds_singleton]
    simpa [toolUseIdsOfBlocks, toolResultMessage, extractToolUses] using h2
  · intro x hx
    rw [hm]
    rw [hpd] at hx
    exact HasRequest_append_left (h3 x (mem_setRemove.mp hx).1)

theorem inv_resolve_pending {s : ConversationManager} {tool_use_id : String}
    (result : ToolCallResult) (now : Nat) (hInv : SessionInv s)
    (hp : tool_use_id ∈ s.pending_tool_uses) :
    SessionInv (ConversationManager.add_tool_result tool_use_id result now s).2 := by
  by_cases hu : tool_use_id ∈ s.used_tool_results
  · rw [atr_duplicate result now hp hu]
    exact hInv
  · match herr : result.error with
    | some e =>
      by_cases hle : (lookupA tool_use_id s.error_counts).getD 0 + 1 ≤ s.max_retries
      · rw [atr_retry result now hp hu herr hle]
        exact hInv
      · rw [atr_error_terminal result now hp hu herr (by omega)]
        exact inv_finalize result now hInv hp
    | none =>
      rw [atr_success result now hp hu herr]
      exact inv_finalize result now hInv hp

theorem inv_resolve {s : ConversationManager} (tool_use_id : String)
    (result : ToolCallResult) (now : Nat) (hInv : SessionInv s) :
    SessionInv (ConversationManager.add_tool_result tool_use_id result now s).2 := by
  by_cases hp : tool_use_id ∈ s.pending_tool_uses
  · exact inv_resolve_pending result now hInv hp
  · match hs : ConversationManager.scanHistory tool_use_id s.messages with
    | none =>
      rw [atr_unknown result now hp hs]
      exact hInv
    | some tu =>
      rw [atr_history_hit result now hp hs]
      have hreq : HasRequest tool_use_id s.messages := (scanHistory_eq_some hs).2
      obtain ⟨h1, h2, h3⟩ := hInv
      have hInv1 : SessionInv { s with
          pending_tool_uses := setAdd tool_use_id s.pending_tool_uses
          tool_calls := insertA tool_use_id tu s.tool_calls } := by
        refine ⟨h1, h2, ?_⟩
        intro x hx
        rcases mem_setAdd.mp hx with rfl | hx
        · exact hreq
        · exact h3 x hx
      exact inv_resolve_pending result now hInv1 (mem_setAdd.mpr (Or.inl rfl))

theorem pbr_shape_none {response : BedrockResponse} (now : Nat)
    (s : ConversationManager) (hout : response.output = none) :
    ConversationManager.process_bedrock_response response now s =
      ({ text := "", tool_uses := [], stop_reason := response.stopReason.getD "unknown" },
       s) := by
  unfold ConversationManager.process_bedrock_response
  rw [hout]

theorem pbr_shape_nil {response : BedrockResponse} (now : Nat)
    (s : ConversationManager) (hout : response.output = some []) :
    ConversationManager.process_bedrock_response response now s =
      ({ text := "", tool_uses := [], stop_reason := response.stopReason.getD "unknown" },
       ConversationManager.transition_to .IDLE now s) := by
  unfold ConversationManager.process_bedrock_response
  rw [hout]
  exact rfl

theorem inv_ingest {s : ConversationManager} (response : BedrockResponse) (now : Nat)
    (hInv : SessionInv s) (hwf : WfResponse response s) :
    SessionInv (ConversationManager.process_bedrock_response response now s).2 := by
  match hout : response.output with
  | none =>
    rw [pbr_shape_none now s hout]
    exact hInv
  | some blocks =>
    by_cases hne : blocks = []
    case pos =>
      subst hne
      rw [pbr_shape_nil now s hout]
      exact inv_transition _ _ hInv
    case neg =>
    rw [pbr_shape_some now s hout hne]
    unfold WfResponse at hwf
    rw [hout] at hwf
    obtain ⟨hnores, hnodup, hfresh⟩ := hwf
    obtain ⟨h1, h2, h3⟩ := hInv
    apply inv_transition
    have hmsgs :
        ({ ConversationManager.registerToolUses (extractToolUses blocks) s with
           messages := (ConversationManager.registerToolUses (extractToolUses blocks) s).messages
             ++ [{ role := .assistant, content := blocks }] } :
          ConversationManager).messages =
        s.messages ++ [{ role := .assistant, content := blocks }] := by
      rw [registerToolUses_messages]
    refine ⟨?_, ?_, ?_⟩
    · rw [hmsgs]
      refine alternation_snoc.mpr ⟨h1, ?_⟩
      intro x rc hmem
      have := hnores _ hmem
      simp [isToolResultBlock] at this
    · unfold UniqueToolUseIds
      rw [hmsgs, transcriptToolUseIds_append, transcriptToolUseIds_singleton]
      refine List.Nodup.append h2 hnodup ?_
      intro a ha hb
      exact hfresh a hb ha
    · intro x hx
      rw [hmsgs]
      have hx' : x ∈ (ConversationManager.registerToolUses (extractToolUses blocks) s).pending_tool_uses := hx
      rcases (registerToolUses_pending_mem _ _ _).mp hx' with hold | hnew
      · exact HasRequest_append_left (h3 x hold)
      · obtain ⟨tu, htu, rfl⟩ := List.mem_map.mp hnew
        refine ⟨{ role := .assistant, content := blocks },
          List.mem_append_right _ (List.mem_singleton.mpr rfl), rfl, tu, rfl, ?_⟩
        exact mem_extractToolUses.mp htu

theorem inv_applyOp {s : ConversationManager} (op : Op) (t : Nat)
    (hInv : SessionInv s) (hwf : WfOp op s) : SessionInv (applyOp op t s) := by
  match op with
  | .submitUser content => exact inv_transition _ _ (inv_add_user content hInv)
  | .ingest response => exact inv_ingest response t hInv hwf
  | .resolve tool_use_id result => exact inv_resolve tool_use_id result t hInv
  | .continueRound => exact inv_transition _ _ hInv

theorem runOps_inv : ∀ (ops : List (Op × Nat)) (s : ConversationManager),
    SessionInv s → LegalWf s ops → SessionInv (runOps s ops) := by
  intro ops
  induction ops with
  | nil => exact fun s hInv _ => hInv
  | cons hd rest ih =>
    intro s hInv hleg
    obtain ⟨op, t⟩ := hd
    obtain ⟨_, hwf, hrest⟩ := hleg
    exact ih _ (inv_applyOp op t hInv hwf) hrest

theorem sessionInv_init : SessionInv ConversationManager.init := by
  refine ⟨trivial, ?_, ?_⟩
  · simp [UniqueToolUseIds, transcriptToolUseIds, ConversationManager.init]
  · intro x hx
    simp [ConversationManager.init] at hx

/-!
The read path (`get_bedrock_messages`) strips cache points; the invariants
survive that cleaning.
-/
theorem filter_cache_keeps_toolUse {blocks : List Block} {tu : ToolUse}
    (h : Block.toolUse tu ∈ blocks) :
    Block.toolUse tu ∈ blocks.filter (fun b => !isCachePoint b) :=
  List.mem_filter.mpr ⟨h, rfl⟩

theorem remove_cache_checkpoint_msg_eq (m : Message) :
    remove_cache_checkpoint_msg m =
      { m with content := m.content.filter (fun b => !isCachePoint b) } := by
  have hshape : remove_cache_checkpoint_msg m =
      { role := m.role,
        content := m.content.filter (fun b => !isCachePoint b) ++
          (m.content.filter isToolUseBlock).filter
            (fun b => !((m.content.filter (fun b => !isCachePoint b)).filter
              isToolUseBlock).contains b) } := rfl
  have hmissing :
      (m.content.filter isToolUseBlock).filter
        (fun b => !((m.content.filter (fun b => !isCachePoint b)).filter
          isToolUseBlock).contains b) = [] := by
    rw [List.filter_eq_nil_iff]
    intro b hb
    have hb1 : b ∈ m.content := (List.mem_filter.mp hb).1
    have hb2 : isToolUseBlock b = true := (List.mem_filter.mp hb).2
    have hcache : (!isCachePoint b) = true := by
      cases b <;> simp_all [isToolUseBlock, isCachePoint]
    have hmem : b ∈ (m.content.filter (fun b => !isCachePoint b)).filter
        isToolUseBlock :=
      List.mem_filter.mpr ⟨List.mem_filter.mpr ⟨hb1, hcache⟩, hb2⟩
    simp [List.elem_eq_true_of_mem hmem]
    exact ⟨hb1, hb2, by simpa using hcache⟩
  rw [hshape, hmissing, List.append_nil]

theorem extractToolUses_filter_cache (blocks : List Block) :
    extractToolUses (blocks.filter (fun b => !isCachePoint b)) =
      extractToolUses blocks := by
  induction blocks with
  | nil => rfl
  | cons b rest ih =>
    match b with
    | .text s1 => simpa [List.filter_cons, isCachePoint, extractToolUses] using ih
    | .toolUse tu => simpa [List.filter_cons, isCachePoint, extractToolUses] using ih
    | .toolResult i c => simpa [List.filter_cons, isCachePoint, extractToolUses] using ih
    | .cachePoint => simpa [List.filter_cons, isCachePoint, extractToolUses] using ih

theorem transcriptToolUseIds_clean (msgs : List Message) :
    transcriptToolUseIds (remove_cache_checkpoint msgs) = transcriptToolUseIds msgs := by
  unfold transcriptToolUseIds remove_cache_checkpoint
  rw [List.map_map]
  congr 1
  apply List.map_congr_left
  intro m _
  show toolUseIdsOfBlocks (remove_cache_checkpoint_msg m).content = _
  rw [remove_cache_checkpoint_msg_eq]
  unfold toolUseIdsOfBlocks
  rw [show ({ m with content := m.content.filter (fun b => !isCachePoint b) } :
    Message).content = m.content.filter (fun b => !isCachePoint b) from rfl]
  rw [extractToolUses_filter_cache]

theorem hasRequest_clean {tool_use_id : String} {msgs : List Message}
    (h : HasRequest tool_use_id msgs) :
    HasRequest tool_use_id (remove_cache_checkpoint msgs) := by
  obtain ⟨m, hm, hrole, tu, hid, hmem⟩ := h
  refine ⟨remove_cache_checkpoint_msg m, List.mem_map.mpr ⟨m, hm, rfl⟩, ?_, tu, hid, ?_⟩
  · rw [remove_cache_checkpoint_msg_eq]
    exact hrole
  · rw [remove_cache_checkpoint_msg_eq]
    exact filter_cache_keeps_toolUse hmem

theorem altAux_clean : ∀ (l seen : List Message), AltAux seen l →
    AltAux (remove_cache_checkpoint seen) (remove_cache_checkpoint l) := by
  intro l
  induction l with
  | nil => exact fun seen _ => trivial
  | cons m rest ih =>
    intro seen h
    obtain ⟨hm, hrest⟩ := h
    refine ⟨?_, ?_⟩
    · intro x rc hmem
      rw [remove_cache_checkpoint_msg_eq] at hmem
      have hmem' : Block.toolResult x rc ∈ m.content :=
        (List.mem_filter.mp hmem).1
      obtain ⟨hrole, hreq⟩ := hm x rc hmem'
      refine ⟨?_, hasRequest_clean hreq⟩
      rw [remove_cache_checkpoint_msg_eq]
      exact hrole
    · have := ih (seen ++ [m]) hrest
      rw [show remove_cache_checkpoint (seen ++ [m]) =
        remove_cache_checkpoint seen ++ [remove_cache_checkpoint_msg m] by
          unfold remove_cache_checkpoint; rw [List.map_append]; rfl] at this
      exact this

theorem alternation_clean {msgs : List Message} (h : Alternation msgs) :
    Alternation (remove_cache_checkpoint msgs) := by
  have := altAux_clean msgs [] h
  exact this

/-- C1 counterexample: a call sequence that respects all documented state
preconditions (`IDLE` for the user turn, `WAITING_FOR_RESPONSE` for the
ingest) but whose gateway response reuses the id `t1` for two tool-request
blocks; the resulting transcript violates the id-uniqueness invariant, both
as stored and as read back by `get_bedrock_messages` — the manager never
checks id freshness. -/
theorem c1_counterexample :
    LegalPre ConversationManager.init traceDupIds ∧
    ¬ UniqueToolUseIds (runOps ConversationManager.init traceDupIds).messages ∧
    ¬ UniqueToolUseIds (ConversationManager.get_bedrock_messages
        (runOps ConversationManager.init traceDupIds)).1 := by
  decide

/-- C1 (amended): for every sequence of `SubmitUserTurn` /
`IngestGatewayResponse` / `ResolveToolRequest` / `PrepareContinuation` steps
that respects the documented state preconditions AND in which every ingested
gateway response is well-formed (text/tool-request blocks only, tool-request
ids pairwise distinct and not previously present in the transcript), the
transcript satisfies the alternation invariant and the id-uniqueness
invariant at every point it is read, both directly and through the
`get_bedrock_messages` read path.  Without the id-freshness assumption the
uniqueness half fails, as the counterexample shows. -/
theorem c1_trace_invariants (ops : List (Op × Nat))
    (hleg : LegalWf ConversationManager.init ops) :
    Alternation (runOps ConversationManager.init ops).messages ∧
    UniqueToolUseIds (runOps ConversationManager.init ops).messages ∧
    Alternation (ConversationManager.get_bedrock_messages
      (runOps ConversationManager.init ops)).1 ∧
    UniqueToolUseIds (ConversationManager.get_bedrock_messages
      (runOps ConversationManager.init ops)).1 := by
  obtain ⟨h1, h2, _⟩ := runOps_inv ops ConversationManager.init sessionInv_init hleg
  refine ⟨h1, h2, ?_, ?_⟩
  · show Alternation (remove_cache_checkpoint (runOps ConversationManager.init ops).messages)
    exact alternation_clean h1
  · show UniqueToolUseIds
      (remove_cache_checkpoint (runOps ConversationManager.init ops).messages)
    unfold UniqueToolUseIds
    rw [transcriptToolUseIds_clean]
    exact h2

/-- Witness for C1 at the section-8 scenario trace. -/
theorem c1_trace_invariants_witness :
    Alternation (runOps ConversationManager.init traceScenario).messages ∧
    UniqueToolUseIds (runOps ConversationManager.init traceScenario).messages ∧
    Alternation (ConversationManager.get_bedrock_messages
      (runOps ConversationManager.init traceScenario)).1 ∧
    UniqueToolUseIds (ConversationManager.get_bedrock_messages
      (runOps ConversationManager.init traceScenario)).1 :=
  c1_trace_invariants traceScenario (by decide)
